import Mathlib

/-!
# dox: a document/folder API over a relational store

A shallow embedding of `cmd/server/main.go` (the HTTP layer) and
`internal/store/store.go` (the data-access layer).

* Go strings are Lean `String`s (sequences of Unicode code points); request
  bodies and decoded JSON strings are therefore valid UTF-8 by construction.
* `time.Time` values are instants on a discrete time line (`Nat`).
* The relational store is an explicit state `Db` (the two tables as lists of
  rows, in table order).  Everything the database decides on its own for one
  statement (the generated id, the clock, a failure of the statement) is an
  explicit input `DbEnv`.
* A Go `(value, error)` result is an `Except GoError value`; a store method that
  writes also returns the new state.
* A handler returns its response, the new store state and the list of store
  methods it called.
-/

namespace Dox

/-! ## Strings (`strings`, `unicode`) -/

/-- Go `unicode.IsSpace`: the code points with the Unicode White_Space property. -/
def isSpace (c : Char) : Bool :=
  c = '\t' || c = '\n' || c = '\x0b' || c = '\x0c' || c = '\r' || c = ' ' ||
  c.toNat = 0x85 || c.toNat = 0xA0 || c.toNat = 0x1680 ||
  (0x2000 ≤ c.toNat && c.toNat ≤ 0x200A) ||
  c.toNat = 0x2028 || c.toNat = 0x2029 || c.toNat = 0x202F || c.toNat = 0x205F ||
  c.toNat = 0x3000

/-- Go `strings.TrimSpace` on the code points of a string: all leading and all
trailing white space removed. -/
def trimSpaceChars (cs : List Char) : List Char :=
  ((cs.dropWhile isSpace).reverse.dropWhile isSpace).reverse

/-- Go `strings.TrimSpace`. -/
def TrimSpace (s : String) : String := ⟨trimSpaceChars s.data⟩

/-- Go `strings.TrimPrefix`: `s` without the leading `pre` when it has that
prefix, `s` itself otherwise. -/
def TrimPrefix (s pre : String) : String :=
  if pre.data.isPrefixOf s.data then ⟨s.data.drop pre.data.length⟩ else s

/-! ## Errors -/

/-- Go `error` values that the two packages tell apart: the driver's
`pgx.ErrNoRows`, the store's `ErrNotFound`, and any other failure (identified
by its message). -/
inductive GoError where
  | pgxErrNoRows
  | ErrNotFound
  | other (msg : String)
deriving DecidableEq, Repr

/-- Go `errors.Is` on these unwrapped sentinel errors. -/
def errorsIs (err target : GoError) : Bool := decide (err = target)

/-! ## Data model (`internal/store`) -/

/-- Instants (`time.Time`, `timestamptz`) on a discrete time line. -/
abbrev Time := Nat

/-- Go `store.Folder`; also a row of table `folders`. -/
structure Folder where
  ID : String
  ParentID : Option String
  Name : String
  CreatedAt : Time
  UpdatedAt : Time
deriving DecidableEq, Repr

/-- Go `store.Document`; also a row of table `documents`. -/
structure Document where
  ID : String
  FolderID : Option String
  Title : String
  Content : String
  CreatedAt : Time
  UpdatedAt : Time
deriving DecidableEq, Repr

/-- Go `store.DriveListing`. -/
structure DriveListing where
  Folders : List Folder
  Documents : List Document
deriving DecidableEq, Repr

/-- The persistent state: the rows of the two tables, in table order. -/
structure Db where
  folders : List Folder
  documents : List Document
deriving DecidableEq, Repr

/-- What the database contributes to one store call besides the stored rows.
`fault` is a failure of the statement for a reason outside the rows modelled
here (connectivity, the 3 second timeout, a value the column type rejects, a
constraint not listed in the schema below); `faultNext` is the same for the
second statement of the call (only `ListDrive` issues two).  `newId` is the
identifier the `id` column default generates for an inserted row, and `now` is
the database clock (`NOW()`, and the timestamp column defaults). -/
structure DbEnv where
  fault : Option String
  faultNext : Option String
  newId : String
  now : Time
deriving DecidableEq, Repr

/-- The collation of the `name` column, as the comparison `ORDER BY name` uses. -/
abbrev Collation := String → String → Bool

/-! ## SQL conditions (three-valued logic) -/

/-- SQL `a = b`: unknown when either side is NULL. -/
def sqlEq (a b : Option String) : Option Bool :=
  match a, b with
  | some x, some y => some (decide (x = y))
  | _, _ => none

/-- SQL `a IS NULL`: never unknown. -/
def sqlIsNull (a : Option String) : Option Bool := some a.isNone

/-- SQL `AND`. -/
def sqlAnd (a b : Option Bool) : Option Bool :=
  match a, b with
  | some false, _ => some false
  | _, some false => some false
  | some true, some true => some true
  | _, _ => none

/-- SQL `OR`. -/
def sqlOr (a b : Option Bool) : Option Bool :=
  match a, b with
  | some true, _ => some true
  | _, some true => some true
  | some false, some false => some false
  | _, _ => none

/-- A `WHERE` clause keeps the rows on which the condition is true (not false,
not unknown). -/
def sqlHolds (c : Option Bool) : Bool := c == some true

/-- The condition of both `ListDrive` queries, for a row whose parent
reference is `ref`:
`($1::uuid IS NULL AND ref IS NULL) OR ref = $1`. -/
def driveCondition (p : Option String) (ref : Option String) : Option Bool :=
  sqlOr (sqlAnd (sqlIsNull p) (sqlIsNull ref)) (sqlEq ref p)

/-! ## Statements -/

/-- Identifiers present in table `folders`. -/
def Db.folderIds (db : Db) : List String := db.folders.map (·.ID)

/-- Identifiers present in table `documents`. -/
def Db.documentIds (db : Db) : List String := db.documents.map (·.ID)

/-- Modelled from the spec: the foreign keys `folders.parent_id → folders.id`
and `documents.folder_id → folders.id` of the persisted schema (the schema
itself is not part of the sources).  A NULL reference always passes. -/
def Db.refOK (db : Db) (ref : Option String) : Bool :=
  match ref with
  | none => true
  | some f => decide (f ∈ db.folderIds)

/-- The statement `SELECT id, parent_id, name, created_at, updated_at FROM folders
WHERE ($1::uuid IS NULL AND parent_id IS NULL) OR parent_id = $1 ORDER BY name`. -/
def selectFolders (coll : Collation) (db : Db) (p : Option String) : List Folder :=
  (db.folders.filter (fun f => sqlHolds (driveCondition p f.ParentID))).insertionSort
    (fun a b => coll a.Name b.Name = true)

/-- The row `ListDrive` scans for a document: the query does not select
`content`, so the Go field keeps its zero value. -/
def Document.withoutContent (d : Document) : Document := { d with Content := "" }

/-- The statement `SELECT id, folder_id, title, created_at, updated_at FROM documents
WHERE ($1::uuid IS NULL AND folder_id IS NULL) OR folder_id = $1
ORDER BY updated_at DESC`, scanned into `Document` values. -/
def selectDocuments (db : Db) (p : Option String) : List Document :=
  ((db.documents.filter (fun d => sqlHolds (driveCondition p d.FolderID))).insertionSort
    (fun a b => b.UpdatedAt ≤ a.UpdatedAt)).map Document.withoutContent

/-- Modelled from the spec: `id` is the unique identifier of a row of the
persisted schema, so an insert whose generated id is already in the table is
refused. -/
def idTaken (ids : List String) (id : String) : Bool := decide (id ∈ ids)

/-- Modelled from the spec: the row an insert into `folders` persists; the
columns the statement does not set take their defaults, a generated id and the
current time. -/
def newFolder (env : DbEnv) (name : String) (parentID : Option String) : Folder :=
  { ID := env.newId, ParentID := parentID, Name := name,
    CreatedAt := env.now, UpdatedAt := env.now }

/-- Modelled from the spec: the row an insert into `documents` persists; the
columns the statement does not set take their defaults, a generated id and the
current time. -/
def newDocument (env : DbEnv) (title content : String) (folderID : Option String) :
    Document :=
  { ID := env.newId, FolderID := folderID, Title := title, Content := content,
    CreatedAt := env.now, UpdatedAt := env.now }

/-- The statement `INSERT INTO folders (name, parent_id) VALUES ($1, $2)
RETURNING id, parent_id, name, created_at, updated_at`: the new row is appended
and returned, unless the statement fails or a constraint refuses it. -/
def insertFolder (db : Db) (env : DbEnv) (name : String) (parentID : Option String) :
    Except GoError (Folder × Db) :=
  match env.fault with
  | some msg => .error (.other msg)
  | none =>
    if !db.refOK parentID then .error (.other "foreign key violation")
    else if idTaken db.folderIds env.newId then .error (.other "unique violation")
    else
      .ok (newFolder env name parentID,
           { db with folders := db.folders ++ [newFolder env name parentID] })

/-- The statement `INSERT INTO documents (title, content, folder_id)
VALUES ($1, $2, $3) RETURNING id, folder_id, title, content, created_at,
updated_at`: the new row is appended and returned, unless the statement fails
or a constraint refuses it. -/
def insertDocument (db : Db) (env : DbEnv) (title content : String)
    (folderID : Option String) : Except GoError (Document × Db) :=
  match env.fault with
  | some msg => .error (.other msg)
  | none =>
    if !db.refOK folderID then .error (.other "foreign key violation")
    else if idTaken db.documentIds env.newId then .error (.other "unique violation")
    else
      .ok (newDocument env title content folderID,
           { db with documents := db.documents ++ [newDocument env title content folderID] })

/-- The statement `SELECT id, folder_id, title, content, created_at, updated_at FROM documents
WHERE id = $1` through `QueryRow(...).Scan`: the first matching row, or
`pgx.ErrNoRows`. -/
def selectDocument (db : Db) (env : DbEnv) (id : String) : Except GoError Document :=
  match env.fault with
  | some msg => .error (.other msg)
  | none =>
    match db.documents.find? (fun d => decide (d.ID = id)) with
    | some d => .ok d
    | none => .error .pgxErrNoRows

/-- The `SET` clause of `UpdateDocument` applied to one row. -/
def Document.set (d : Document) (env : DbEnv) (title content : String)
    (folderID : Option String) : Document :=
  { d with Title := title, Content := content, FolderID := folderID, UpdatedAt := env.now }

/-- The statement `UPDATE documents SET title = $2, content = $3, folder_id = $4,
updated_at = NOW() WHERE id = $1 RETURNING ...` through `QueryRow(...).Scan`:
every matching row is rewritten and the first one is returned, or
`pgx.ErrNoRows` when none matches. -/
def updateDocument (db : Db) (env : DbEnv) (id title content : String)
    (folderID : Option String) : Except GoError (Document × Db) :=
  match env.fault with
  | some msg => .error (.other msg)
  | none =>
    match db.documents.find? (fun d => decide (d.ID = id)) with
    | none => .error .pgxErrNoRows
    | some d =>
      if !db.refOK folderID then .error (.other "foreign key violation")
      else
        .ok (d.set env title content folderID,
             { db with documents := db.documents.map (fun r =>
                 if r.ID = id then r.set env title content folderID else r) })

/-! ## The store (`internal/store/store.go`) -/

/-- Go `(*Store).ListDrive`: the folder query, then the document query; the
first failure is returned. -/
def ListDrive (coll : Collation) (db : Db) (env : DbEnv) (parentID : Option String) :
    Except GoError DriveListing :=
  match env.fault with
  | some msg => .error (.other msg)
  | none =>
    match env.faultNext with
    | some msg => .error (.other msg)
    | none =>
      .ok { Folders := selectFolders coll db parentID,
            Documents := selectDocuments db parentID }

/-- Go `(*Store).CreateFolder`. -/
def CreateFolder (db : Db) (env : DbEnv) (name : String) (parentID : Option String) :
    Except GoError (Folder × Db) :=
  insertFolder db env name parentID

/-- Go `(*Store).CreateDocument`. -/
def CreateDocument (db : Db) (env : DbEnv) (title content : String)
    (folderID : Option String) : Except GoError (Document × Db) :=
  insertDocument db env title content folderID

/-- Go `(*Store).GetDocument`: `pgx.ErrNoRows` becomes `ErrNotFound`, any
other error is passed on. -/
def GetDocument (db : Db) (env : DbEnv) (id : String) : Except GoError Document :=
  match selectDocument db env id with
  | .error err =>
    if errorsIs err .pgxErrNoRows then .error .ErrNotFound else .error err
  | .ok doc => .ok doc

/-- Go `(*Store).UpdateDocument`: `pgx.ErrNoRows` becomes `ErrNotFound`, any
other error is passed on. -/
def UpdateDocument (db : Db) (env : DbEnv) (id title content : String)
    (folderID : Option String) : Except GoError (Document × Db) :=
  match updateDocument db env id title content folderID with
  | .error err =>
    if errorsIs err .pgxErrNoRows then .error .ErrNotFound else .error err
  | .ok r => .ok r

/-! ## JSON text (`encoding/json`, decoding side) -/

/-- A JSON value as the decoder sees it; a number keeps its literal text. -/
inductive JSON where
  | null
  | bool (b : Bool)
  | num (text : List Char)
  | str (s : String)
  | arr (items : List JSON)
  | obj (members : List (String × JSON))

/-- White space of the JSON grammar (the scanner's `isSpace`). -/
def isJSONSpace (c : Char) : Bool := c = ' ' || c = '\t' || c = '\r' || c = '\n'

/-- Leading JSON white space skipped. -/
def skipSpace (cs : List Char) : List Char := cs.dropWhile isJSONSpace

/-- The value of a hexadecimal digit. -/
def hexDigit (c : Char) : Option Nat :=
  if '0' ≤ c ∧ c ≤ '9' then some (c.toNat - '0'.toNat)
  else if 'a' ≤ c ∧ c ≤ 'f' then some (c.toNat - 'a'.toNat + 10)
  else if 'A' ≤ c ∧ c ≤ 'F' then some (c.toNat - 'A'.toNat + 10)
  else none

/-- Go `getu4`: the number written by four hexadecimal digits. -/
def hex4 (a b c d : Char) : Option Nat :=
  match hexDigit a, hexDigit b, hexDigit c, hexDigit d with
  | some x, some y, some z, some w => some (((x * 16 + y) * 16 + z) * 16 + w)
  | _, _, _, _ => none

/-- One unit of a string literal: a character (written literally or by a
one-letter escape) or a `\uXXXX` escape. -/
inductive StrUnit where
  | chr (c : Char)
  | esc (n : Nat)

/-- The character a one-letter escape stands for. -/
def simpleEscape (e : Char) : Option Char :=
  if e = '"' then some '"'
  else if e = '\\' then some '\\'
  else if e = '/' then some '/'
  else if e = 'b' then some '\x08'
  else if e = 'f' then some '\x0c'
  else if e = 'n' then some '\n'
  else if e = 'r' then some '\r'
  else if e = 't' then some '\t'
  else none

/-- The scanner inside a string literal, after the opening quote: the units up
to the closing quote and the input after it.  An unknown escape, a control
character or the end of input is a syntax error. -/
def scanString : List Char → Option (List StrUnit × List Char)
  | [] => none
  | c :: cs =>
    if c = '"' then some ([], cs)
    else if c = '\\' then
      match cs with
      | [] => none
      | e :: cs1 =>
        if e = 'u' then
          match cs1 with
          | a :: b :: c1 :: d :: rest =>
            match hex4 a b c1 d with
            | some n => (scanString rest).map (fun r => (StrUnit.esc n :: r.1, r.2))
            | none => none
          | _ => none
        else
          match simpleEscape e with
          | some ch => (scanString cs1).map (fun r => (StrUnit.chr ch :: r.1, r.2))
          | none => none
    else if c.toNat < 0x20 then none
    else (scanString cs).map (fun r => (StrUnit.chr c :: r.1, r.2))

/-- U+FFFD, `unicode.ReplacementChar`. -/
def replacementChar : Char := Char.ofNat 0xFFFD

/-- A UTF-16 high (leading) surrogate. -/
def isHighSurrogate (n : Nat) : Bool := 0xD800 ≤ n && n < 0xDC00

/-- A UTF-16 low (trailing) surrogate. -/
def isLowSurrogate (n : Nat) : Bool := 0xDC00 ≤ n && n < 0xE000

/-- Go `unquote` on the scanned units: a `\u` escape of a high surrogate
followed directly by one of a low surrogate is the pair's code point, any other
surrogate escape is U+FFFD.  `pending` is a high surrogate just read. -/
def unquoteUnits : Option Nat → List StrUnit → List Char
  | none, [] => []
  | some _, [] => [replacementChar]
  | none, .chr c :: rest => c :: unquoteUnits none rest
  | some _, .chr c :: rest => replacementChar :: c :: unquoteUnits none rest
  | none, .esc n :: rest =>
    if isHighSurrogate n then unquoteUnits (some n) rest
    else if isLowSurrogate n then replacementChar :: unquoteUnits none rest
    else Char.ofNat n :: unquoteUnits none rest
  | some h, .esc n :: rest =>
    if isLowSurrogate n then
      Char.ofNat (0x10000 + (h - 0xD800) * 0x400 + (n - 0xDC00)) :: unquoteUnits none rest
    else if isHighSurrogate n then replacementChar :: unquoteUnits (some n) rest
    else replacementChar :: Char.ofNat n :: unquoteUnits none rest

/-- A string literal after its opening quote: the decoded string and the input
after the closing quote. -/
def parseString (cs : List Char) : Option (String × List Char) :=
  (scanString cs).map (fun r => (String.mk (unquoteUnits none r.1), r.2))

/-- One or more decimal digits, and the input after them. -/
def scanDigits (cs : List Char) : Option (List Char × List Char) :=
  match cs.span Char.isDigit with
  | ([], _) => none
  | (ds, rest) => some (ds, rest)

/-- The optional exponent of a number. -/
def scanExponent (cs : List Char) : Option (List Char × List Char) :=
  match cs with
  | e :: rest =>
    if e = 'e' ∨ e = 'E' then
      match rest with
      | sg :: rest1 =>
        if sg = '+' ∨ sg = '-' then
          (scanDigits rest1).map (fun r => (e :: sg :: r.1, r.2))
        else (scanDigits rest).map (fun r => (e :: r.1, r.2))
      | [] => none
    else some ([], cs)
  | [] => some ([], cs)

/-- The optional fraction and exponent of a number. -/
def scanFraction (cs : List Char) : Option (List Char × List Char) :=
  match cs with
  | '.' :: rest =>
    match scanDigits rest with
    | some (ds, rest1) => (scanExponent rest1).map (fun r => ('.' :: ds ++ r.1, r.2))
    | none => none
  | _ => scanExponent cs

/-- The integer part of a number and what follows: a single `0`, or a digit
`1`-`9` and further digits. -/
def scanUnsigned (cs : List Char) : Option (List Char × List Char) :=
  match cs with
  | c :: rest =>
    if c = '0' then (scanFraction rest).map (fun r => (c :: r.1, r.2))
    else if c.isDigit then
      match rest.span Char.isDigit with
      | (ds, rest1) => (scanFraction rest1).map (fun r => (c :: ds ++ r.1, r.2))
    else none
  | [] => none

/-- A number literal: its text and the input after it. -/
def scanNumber (cs : List Char) : Option (List Char × List Char) :=
  match cs with
  | '-' :: rest => (scanUnsigned rest).map (fun r => ('-' :: r.1, r.2))
  | _ => scanUnsigned cs

/-- The scanner's `maxNestingDepth`. -/
def maxNestingDepth : Nat := 10000

mutual
/-- One JSON value at the start of the input (after optional white space):
the value and the input after it, or `none` on a syntax error or at the end of
input.  `depth` counts the enclosing arrays and objects; `fuel` bounds the
recursion and is never exhausted when it exceeds twice the length of the
input. -/
def parseValue : Nat → Nat → List Char → Option (JSON × List Char)
  | 0, _, _ => none
  | fuel + 1, depth, cs =>
    match skipSpace cs with
    | [] => none
    | c :: rest =>
      if c = '{' then
        if maxNestingDepth ≤ depth then none
        else
          match skipSpace rest with
          | '}' :: rest1 => some (.obj [], rest1)
          | _ => (parseMembers fuel (depth + 1) rest).map (fun r => (.obj r.1, r.2))
      else if c = '[' then
        if maxNestingDepth ≤ depth then none
        else
          match skipSpace rest with
          | ']' :: rest1 => some (.arr [], rest1)
          | _ => (parseElements fuel (depth + 1) rest).map (fun r => (.arr r.1, r.2))
      else if c = '"' then (parseString rest).map (fun r => (.str r.1, r.2))
      else if c = '-' ∨ c.isDigit then (scanNumber (c :: rest)).map (fun r => (.num r.1, r.2))
      else if "true".data.isPrefixOf (c :: rest) then some (.bool true, rest.drop 3)
      else if "false".data.isPrefixOf (c :: rest) then some (.bool false, rest.drop 4)
      else if "null".data.isPrefixOf (c :: rest) then some (.null, rest.drop 3)
      else none
/-- The members of an object from a key on, up to and including the closing
brace. -/
def parseMembers : Nat → Nat → List Char → Option (List (String × JSON) × List Char)
  | 0, _, _ => none
  | fuel + 1, depth, cs =>
    match skipSpace cs with
    | '"' :: rest =>
      match parseString rest with
      | none => none
      | some (key, rest1) =>
        match skipSpace rest1 with
        | ':' :: rest2 =>
          match parseValue fuel depth rest2 with
          | none => none
          | some (v, rest3) =>
            match skipSpace rest3 with
            | ',' :: rest4 =>
              (parseMembers fuel depth rest4).map (fun r => ((key, v) :: r.1, r.2))
            | '}' :: rest4 => some ([(key, v)], rest4)
            | _ => none
        | _ => none
    | _ => none
/-- The elements of an array from a value on, up to and including the closing
bracket. -/
def parseElements : Nat → Nat → List Char → Option (List JSON × List Char)
  | 0, _, _ => none
  | fuel + 1, depth, cs =>
    match parseValue fuel depth cs with
    | none => none
    | some (v, rest) =>
      match skipSpace rest with
      | ',' :: rest1 => (parseElements fuel depth rest1).map (fun r => (v :: r.1, r.2))
      | ']' :: rest1 => some ([v], rest1)
      | _ => none
end

/-- The next JSON value of a stream and the input after it. -/
def readValue (cs : List Char) : Option (JSON × List Char) :=
  parseValue (2 * cs.length + 2) 0 cs

/-! ## Unmarshalling into the request types (`cmd/server/main.go`) -/

/-- Go `createFolderRequest`. -/
structure createFolderRequest where
  Name : String
  ParentID : Option String
deriving DecidableEq, Repr

/-- Go `createDocumentRequest`. -/
structure createDocumentRequest where
  Title : String
  FolderID : Option String
  Content : String
deriving DecidableEq, Repr

/-- Go `updateDocumentRequest`. -/
structure updateDocumentRequest where
  Title : String
  FolderID : Option String
  Content : String
deriving DecidableEq, Repr

/-- The decoder's case folding of an object key.  Only ASCII letters are
folded here; the decoder also folds the Kelvin sign and the long s onto `k`
and `s`, letters that occur in none of the field names of this server. -/
def foldName (s : String) : List Char := s.data.map Char.toUpper

/-- A key selects the field with JSON name `field` when the two are equal up
to case. -/
def keyMatches (key field : String) : Bool := decide (foldName key = foldName field)

/-- A JSON value stored into a Go `string` field holding `cur`: a string is
stored, `null` leaves the field alone, anything else is a type error. -/
def storeString (v : JSON) (cur : String) : Option String :=
  match v with
  | .str s => some s
  | .null => some cur
  | _ => none

/-- A JSON value stored into a Go `*string` field: a string is stored behind a
fresh pointer, `null` stores nil, anything else is a type error. -/
def storePtrString (v : JSON) : Option (Option String) :=
  match v with
  | .str s => some (some s)
  | .null => some none
  | _ => none

/-- One object member stored into a `createFolderRequest`; `none` is a type
error or, with `DisallowUnknownFields`, an unknown field. -/
def createFolderRequest.setField (key : String) (v : JSON) (r : createFolderRequest) :
    Option createFolderRequest :=
  if keyMatches key "name" then (storeString v r.Name).map (fun x => { r with Name := x })
  else if keyMatches key "parent_id" then
    (storePtrString v).map (fun x => { r with ParentID := x })
  else none

/-- One object member stored into a `createDocumentRequest`. -/
def createDocumentRequest.setField (key : String) (v : JSON) (r : createDocumentRequest) :
    Option createDocumentRequest :=
  if keyMatches key "title" then (storeString v r.Title).map (fun x => { r with Title := x })
  else if keyMatches key "folder_id" then
    (storePtrString v).map (fun x => { r with FolderID := x })
  else if keyMatches key "content" then
    (storeString v r.Content).map (fun x => { r with Content := x })
  else none

/-- One object member stored into an `updateDocumentRequest`. -/
def updateDocumentRequest.setField (key : String) (v : JSON) (r : updateDocumentRequest) :
    Option updateDocumentRequest :=
  if keyMatches key "title" then (storeString v r.Title).map (fun x => { r with Title := x })
  else if keyMatches key "folder_id" then
    (storePtrString v).map (fun x => { r with FolderID := x })
  else if keyMatches key "content" then
    (storeString v r.Content).map (fun x => { r with Content := x })
  else none

/-- The members of an object stored one after the other, in input order (a
repeated key overwrites). -/
def storeMembers {α : Type} (setField : String → JSON → α → Option α) :
    List (String × JSON) → α → Option α
  | [], r => some r
  | (k, v) :: rest, r =>
    match setField k v r with
    | some r1 => storeMembers setField rest r1
    | none => none

/-- Go `Decoder.Decode` of one value into a struct that holds `zero`: `null`
has no effect, an object stores its members, any other value is a type
error. -/
def unmarshalStruct {α : Type} (setField : String → JSON → α → Option α) (zero : α)
    (v : JSON) : Option α :=
  match v with
  | .null => some zero
  | .obj members => storeMembers setField members zero
  | _ => none

/-- A destination of `decodeJSON`: the zero value `var req T` starts from and
the way one member is stored. -/
structure Dest (α : Type) where
  zero : α
  setField : String → JSON → α → Option α

/-- Destination `*createFolderRequest`. -/
def createFolderRequest.dest : Dest createFolderRequest :=
  { zero := { Name := "", ParentID := none }, setField := createFolderRequest.setField }

/-- Destination `*createDocumentRequest`. -/
def createDocumentRequest.dest : Dest createDocumentRequest :=
  { zero := { Title := "", FolderID := none, Content := "" },
    setField := createDocumentRequest.setField }

/-- Destination `*updateDocumentRequest`. -/
def updateDocumentRequest.dest : Dest updateDocumentRequest :=
  { zero := { Title := "", FolderID := none, Content := "" },
    setField := updateDocumentRequest.setField }

/-- The limit `http.MaxBytesReader` puts on the body: `1<<20` bytes. -/
def maxBodyBytes : Nat := 1 <<< 20

/-- The message of every error `decodeJSON` returns. -/
def invalidPayload : String := "invalid JSON payload"

/-- Go `decodeJSON`.  A body longer than the limit makes one of the two
`Decode` calls fail with the reader's error.  Otherwise the first `Decode`
reads one value and stores it into the destination, and the second `Decode`
must report `io.EOF`, which it does exactly when only white space is left. -/
def decodeJSON {α : Type} (dst : Dest α) (body : String) : Except String α :=
  if maxBodyBytes < body.utf8ByteSize then .error invalidPayload
  else
    match readValue body.data with
    | none => .error invalidPayload
    | some (v, rest) =>
      match unmarshalStruct dst.setField dst.zero v with
      | none => .error invalidPayload
      | some req =>
        if (skipSpace rest).isEmpty then .ok req else .error invalidPayload

/-! ## Responses (`encoding/json`, encoding side) -/

/-- Go `errorResponse`. -/
structure errorResponse where
  Error : String
deriving DecidableEq, Repr

/-- The value handed to `writeJSON`. -/
inductive Payload where
  | error (e : errorResponse)
  | health
  | listing (l : DriveListing)
  | folder (f : Folder)
  | document (d : Document)
deriving DecidableEq, Repr

/-- What `writeJSON` writes: the status line and the payload to encode. -/
structure Response where
  status : Nat
  payload : Payload
deriving DecidableEq, Repr

/-- An encoded JSON document; a `time.Time` is kept as the instant it writes. -/
inductive Encoded where
  | null
  | str (s : String)
  | time (t : Time)
  | arr (items : List Encoded)
  | obj (members : List (String × Encoded))

/-- A `*string` field: `null` for nil. -/
def encodePtr (p : Option String) : Encoded :=
  match p with
  | none => .null
  | some s => .str s

/-- The members `json.Marshal` writes for a `Folder`, in field order. -/
def Folder.members (f : Folder) : List (String × Encoded) :=
  [("id", .str f.ID), ("parent_id", encodePtr f.ParentID), ("name", .str f.Name),
   ("created_at", .time f.CreatedAt), ("updated_at", .time f.UpdatedAt)]

/-- The members `json.Marshal` writes for a `Document`, in field order; the
tag `json:"content,omitempty"` leaves `content` out when it is the empty
string. -/
def Document.members (d : Document) : List (String × Encoded) :=
  [("id", .str d.ID), ("folder_id", encodePtr d.FolderID), ("title", .str d.Title)] ++
  (if d.Content = "" then [] else [("content", .str d.Content)]) ++
  [("created_at", .time d.CreatedAt), ("updated_at", .time d.UpdatedAt)]

/-- The JSON document `json.NewEncoder(w).Encode(payload)` writes. -/
def Payload.encode : Payload → Encoded
  | .error e => .obj [("error", .str e.Error)]
  | .health => .obj [("status", .str "ok")]
  | .listing l =>
    .obj [("folders", .arr (l.Folders.map (fun f => .obj f.members))),
          ("documents", .arr (l.Documents.map (fun d => .obj d.members)))]
  | .folder f => .obj f.members
  | .document d => .obj d.members

/-- The member names of an encoded object (none for other values). -/
def Encoded.keys : Encoded → List String
  | .obj members => members.map (·.1)
  | _ => []

/-- A hexadecimal digit as the encoder writes it. -/
def hexChar (n : Nat) : Char := "0123456789abcdef".data.getD n '0'

/-- One character of a string as the encoder writes it (HTML escaping is on by
default): quote and backslash are escaped, `\n`, `\r`, `\t` have short forms,
other control characters and `<`, `>`, `&`, U+2028, U+2029 are written
`\uXXXX`. -/
def quoteChar (c : Char) : List Char :=
  if c = '"' then ['\\', '"']
  else if c = '\\' then ['\\', '\\']
  else if c = '\n' then ['\\', 'n']
  else if c = '\r' then ['\\', 'r']
  else if c = '\t' then ['\\', 't']
  else if c.toNat < 0x20 ∨ c = '<' ∨ c = '>' ∨ c = '&' ∨ c.toNat = 0x2028 ∨ c.toNat = 0x2029 then
    ['\\', 'u', hexChar (c.toNat / 4096 % 16), hexChar (c.toNat / 256 % 16),
     hexChar (c.toNat / 16 % 16), hexChar (c.toNat % 16)]
  else [c]

/-- A string as a JSON string literal. -/
def quoteJSON (s : String) : List Char := ['"'] ++ s.data.flatMap quoteChar ++ ['"']

/-- The bytes `Encode` writes for an `errorResponse`: the object and the
encoder's terminating newline. -/
def errorResponse.body (e : errorResponse) : String :=
  String.mk ("\x7b\"error\":".data ++ quoteJSON e.Error ++ ['}', '\n'])

/-! ## The HTTP layer (`cmd/server/main.go`) -/

/-- The parts of `*http.Request` the handlers read. -/
structure Request where
  Method : String
  Path : String
  Query : List (String × String)
  Body : String
deriving DecidableEq, Repr

/-- Go `url.Values.Get`: the first value of the key, or the empty string. -/
def queryGet (q : List (String × String)) (key : String) : String :=
  match q.find? (fun kv => decide (kv.1 = key)) with
  | some kv => kv.2
  | none => ""

/-- A store method called by a handler, with its arguments. -/
inductive StoreCall where
  | ListDrive (parentID : Option String)
  | CreateFolder (name : String) (parentID : Option String)
  | CreateDocument (title content : String) (folderID : Option String)
  | GetDocument (id : String)
  | UpdateDocument (id title content : String) (folderID : Option String)
deriving DecidableEq, Repr

/-- What serving one request does: the response written, the store state
afterwards and the store methods called. -/
structure Outcome where
  resp : Response
  db : Db
  calls : List StoreCall
deriving DecidableEq, Repr

/-- Go `writeJSON`. -/
def writeJSON (status : Nat) (payload : Payload) : Response :=
  { status := status, payload := payload }

/-- Go `writeError`. -/
def writeError (status : Nat) (message : String) : Response :=
  writeJSON status (.error { Error := message })

/-- Go `parseOptionalID`. -/
def parseOptionalID (value : String) : Option String :=
  let trimmed := TrimSpace value
  if trimmed = "" then none else some trimmed

/-- Go `handleHealth`. -/
def handleHealth (db : Db) (_r : Request) : Outcome :=
  { resp := writeJSON 200 .health, db := db, calls := [] }

/-- Go `handleDrive`. -/
def handleDrive (coll : Collation) (db : Db) (env : DbEnv) (r : Request) : Outcome :=
  if r.Method ≠ "GET" then
    { resp := writeError 405 "method not allowed", db := db, calls := [] }
  else
    let parentID := parseOptionalID (queryGet r.Query "parent_id")
    match ListDrive coll db env parentID with
    | .error _ =>
      { resp := writeError 500 "failed to load drive", db := db,
        calls := [.ListDrive parentID] }
    | .ok listing =>
      { resp := writeJSON 200 (.listing listing), db := db, calls := [.ListDrive parentID] }

/-- Go `handleFolders`. -/
def handleFolders (db : Db) (env : DbEnv) (r : Request) : Outcome :=
  if r.Method ≠ "POST" then
    { resp := writeError 405 "method not allowed", db := db, calls := [] }
  else
    match decodeJSON createFolderRequest.dest r.Body with
    | .error err => { resp := writeError 400 err, db := db, calls := [] }
    | .ok req =>
      let name := TrimSpace req.Name
      if name = "" then
        { resp := writeError 400 "folder name is required", db := db, calls := [] }
      else
        match CreateFolder db env name req.ParentID with
        | .error _ =>
          { resp := writeError 500 "failed to create folder", db := db,
            calls := [.CreateFolder name req.ParentID] }
        | .ok (folder, db1) =>
          { resp := writeJSON 201 (.folder folder), db := db1,
            calls := [.CreateFolder name req.ParentID] }

/-- Go `handleDocuments`. -/
def handleDocuments (db : Db) (env : DbEnv) (r : Request) : Outcome :=
  if r.Method ≠ "POST" then
    { resp := writeError 405 "method not allowed", db := db, calls := [] }
  else
    match decodeJSON createDocumentRequest.dest r.Body with
    | .error err => { resp := writeError 400 err, db := db, calls := [] }
    | .ok req =>
      let title := if TrimSpace req.Title = "" then "Untitled" else TrimSpace req.Title
      match CreateDocument db env title req.Content req.FolderID with
      | .error _ =>
        { resp := writeError 500 "failed to create document", db := db,
          calls := [.CreateDocument title req.Content req.FolderID] }
      | .ok (doc, db1) =>
        { resp := writeJSON 201 (.document doc), db := db1,
          calls := [.CreateDocument title req.Content req.FolderID] }

/-- Go `handleDocument`. -/
def handleDocument (db : Db) (env : DbEnv) (r : Request) : Outcome :=
  let id := TrimPrefix r.Path "/api/documents/"
  if id = "" then
    { resp := writeError 404 "not found", db := db, calls := [] }
  else if r.Method = "GET" then
    match GetDocument db env id with
    | .error err =>
      if errorsIs err .ErrNotFound then
        { resp := writeError 404 "document not found", db := db, calls := [.GetDocument id] }
      else
        { resp := writeError 500 "failed to load document", db := db,
          calls := [.GetDocument id] }
    | .ok doc =>
      { resp := writeJSON 200 (.document doc), db := db, calls := [.GetDocument id] }
  else if r.Method = "PUT" then
    match decodeJSON updateDocumentRequest.dest r.Body with
    | .error err => { resp := writeError 400 err, db := db, calls := [] }
    | .ok req =>
      let title := if TrimSpace req.Title = "" then "Untitled" else TrimSpace req.Title
      match UpdateDocument db env id title req.Content req.FolderID with
      | .error err =>
        if errorsIs err .ErrNotFound then
          { resp := writeError 404 "document not found", db := db,
            calls := [.UpdateDocument id title req.Content req.FolderID] }
        else
          { resp := writeError 500 "failed to update document", db := db,
            calls := [.UpdateDocument id title req.Content req.FolderID] }
      | .ok (doc, db1) =>
        { resp := writeJSON 200 (.document doc), db := db1,
          calls := [.UpdateDocument id title req.Content req.FolderID] }
  else
    { resp := writeError 405 "method not allowed", db := db, calls := [] }

/-- The API routes registered on the mux in `main`. -/
inductive Route where
  | health
  | drive
  | folders
  | documents
  | document
deriving DecidableEq, Repr

/-- The mux patterns: a pattern without a trailing slash matches that path
only, `/api/documents/` matches every path below it; any other path goes to
the file server (`none`). -/
def routeOf (path : String) : Option Route :=
  if path = "/api/health" then some .health
  else if path = "/api/drive" then some .drive
  else if path = "/api/folders" then some .folders
  else if path = "/api/documents" then some .documents
  else if "/api/documents/".data.isPrefixOf path.data then some .document
  else none

/-- The handler registered for a route. -/
def Route.handle (coll : Collation) (db : Db) (env : DbEnv) (r : Request) : Route → Outcome
  | .health => handleHealth db r
  | .drive => handleDrive coll db env r
  | .folders => handleFolders db env r
  | .documents => handleDocuments db env r
  | .document => handleDocument db env r

/-- The methods the route table of the specification lists for a route. -/
def Route.listedMethods : Route → List String
  | .health => ["GET"]
  | .drive => ["GET"]
  | .folders => ["POST"]
  | .documents => ["POST"]
  | .document => ["GET", "PUT"]

/-! ## Notions of the specification, and sample data -/

/-- A string that is empty or consists of white space only. -/
def blank (s : String) : Bool := s.data.all isSpace

/-- The empty store. -/
def emptyDb : Db := { folders := [], documents := [] }

/-- A database environment without failure, generating id `id` at time `now`. -/
def quietEnv (id : String) (now : Time) : DbEnv :=
  { fault := none, faultNext := none, newId := id, now := now }

/-- A request with a method, a path and a body, without query parameters. -/
def request (method path body : String) : Request :=
  { Method := method, Path := path, Query := [], Body := body }

/-- The result of `ListDrive` as the specification words it: the folders whose `parent_id`
equals the given optional id (the root folders when none is given) by
ascending name, and the documents whose `folder_id` equals it by descending
`updated_at`, without their content. -/
def ListDriveSpec (coll : Collation) (db : Db) (parentID : Option String) : DriveListing :=
  { Folders :=
      (db.folders.filter (fun f => decide (f.ParentID = parentID))).insertionSort
        (fun a b => coll a.Name b.Name = true),
    Documents :=
      ((db.documents.filter (fun d => decide (d.FolderID = parentID))).insertionSort
        (fun a b => b.UpdatedAt ≤ a.UpdatedAt)).map Document.withoutContent }

/-- Code point order on names, a sample collation. -/
def codePointOrder : Collation := fun a b => decide (a.data ≤ b.data)

/-- The member of an encoded object with a given name. -/
def Encoded.get (key : String) : Encoded → Option Encoded
  | .obj members => (members.find? (fun m => decide (m.1 = key))).map (·.2)
  | _ => none

/-- The items of an encoded array (none for other values). -/
def Encoded.items : Encoded → List Encoded
  | .arr items => items
  | _ => []

/-- The document entries of an encoded drive listing. -/
def Encoded.documentEntries (e : Encoded) : List Encoded :=
  match e.get "documents" with
  | some a => a.items
  | none => []

/-- A store with two root folders, a nested folder, two root documents and a
nested document. -/
def sampleDb : Db :=
  { folders := [⟨"f2", none, "b", 1, 1⟩, ⟨"f1", none, "a", 1, 1⟩, ⟨"f3", some "f1", "c", 2, 2⟩],
    documents := [⟨"d1", none, "old", "text", 1, 3⟩, ⟨"d3", some "f1", "in", "body", 2, 5⟩,
                  ⟨"d2", none, "new", "", 2, 7⟩] }

/-! ## Which bodies `decodeJSON` accepts -/

/-- A JSON string or `null`: the values a `string` or `*string` field takes. -/
def JSON.isStringOrNull : JSON → Bool
  | .str _ => true
  | .null => true
  | _ => false

/-- The key selects one of the fields with the given JSON names. -/
def knownField (names : List String) (key : String) : Bool := names.any (keyMatches key)

/-- The JSON names of the fields of `createFolderRequest`. -/
def createFolderRequest.names : List String := ["name", "parent_id"]

/-- The JSON names of the fields of `createDocumentRequest` and of
`updateDocumentRequest`. -/
def documentRequestNames : List String := ["title", "folder_id", "content"]

/-- The acceptance condition as the specification words it: the body is one
well-formed JSON object whose fields are all known to the destination,
followed by nothing other than white space. -/
def singleKnownObject (names : List String) (body : String) : Bool :=
  match readValue body.data with
  | some (.obj members, rest) =>
    members.all (fun m => knownField names m.1) && (skipSpace rest).isEmpty
  | _ => false

/-- A value the decoder stores without error: `null`, or an object whose
members all select a known field and carry a string or `null`. -/
def acceptableValue (names : List String) : JSON → Bool
  | .null => true
  | .obj members => members.all (fun m => knownField names m.1 && m.2.isStringOrNull)
  | _ => false

/-- A body within the size limit that is one acceptable value followed by
nothing other than white space. -/
def acceptableBody (names : List String) (body : String) : Bool :=
  decide (body.utf8ByteSize ≤ maxBodyBytes) &&
    match readValue body.data with
    | some (v, rest) => acceptableValue names v && (skipSpace rest).isEmpty
    | none => false

/-! # Theorems -/

/-! ## Auxiliary facts -/

theorem trimSpaceChars_eq_nil_iff (cs : List Char) :
    trimSpaceChars cs = [] ↔ ∀ c ∈ cs, isSpace c = true := by
  unfold trimSpaceChars
  constructor
  · intro h
    have h1 : (cs.dropWhile isSpace).reverse.dropWhile isSpace = [] := by
      simpa using h
    rw [List.dropWhile_eq_nil_iff] at h1
    by_cases h2 : cs.dropWhile isSpace = []
    · exact List.dropWhile_eq_nil_iff.mp h2
    · exfalso
      have h3 := List.head_dropWhile_not isSpace cs h2
      have h4 := h1 ((cs.dropWhile isSpace).head h2) (by simp)
      simp [h4] at h3
  · intro h
    have h2 : cs.dropWhile isSpace = [] := List.dropWhile_eq_nil_iff.mpr h
    simp [h2]

theorem TrimSpace_eq_empty_iff (s : String) :
    TrimSpace s = "" ↔ ∀ c ∈ s.data, isSpace c = true := by
  rw [← trimSpaceChars_eq_nil_iff]
  unfold TrimSpace
  constructor
  · intro h
    have := congrArg String.data h
    simpa using this
  · intro h
    rw [h]

theorem TrimPrefix_append (pre s : String) : TrimPrefix (pre ++ s) pre = s := by
  unfold TrimPrefix
  have h : pre.data.isPrefixOf (pre ++ s).data = true := by
    rw [List.isPrefixOf_iff_prefix]
    simp [String.data_append]
  simp [h, String.data_append]

theorem CreateDocument_ok_iff (db : Db) (env : DbEnv) (title content : String)
    (folderID : Option String) (doc : Document) (db1 : Db) :
    CreateDocument db env title content folderID = .ok (doc, db1) ↔
      env.fault = none ∧ db.refOK folderID = true ∧ env.newId ∉ db.documentIds ∧
      doc = { ID := env.newId, FolderID := folderID, Title := title, Content := content,
              CreatedAt := env.now, UpdatedAt := env.now } ∧
      db1 = { db with documents := db.documents ++ [doc] } := by
  unfold CreateDocument insertDocument idTaken newDocument
  cases hf : env.fault with
  | some msg => simp
  | none =>
    by_cases hr : db.refOK folderID = true
    · by_cases hi : env.newId ∈ db.documentIds
      · simp [hr, hi]
      · simp only [hr, hi, decide_False, Bool.not_true, Bool.false_eq_true, if_false,
          Except.ok.injEq, Prod.mk.injEq, true_and, not_false_eq_true]
        constructor
        · rintro ⟨h1, h2⟩
          subst h1
          exact ⟨rfl, h2.symm⟩
        · rintro ⟨h1, h2⟩
          subst h1
          exact ⟨rfl, h2.symm⟩
    · simp [hr]

theorem CreateDocument_error_iff (db : Db) (env : DbEnv) (title content : String)
    (folderID : Option String) :
    (∃ err, CreateDocument db env title content folderID = .error err) ↔
      ¬ (env.fault = none ∧ db.refOK folderID = true ∧ env.newId ∉ db.documentIds) := by
  unfold CreateDocument insertDocument idTaken newDocument
  cases hf : env.fault with
  | some msg => simp
  | none =>
    by_cases hr : db.refOK folderID = true
    · by_cases hi : env.newId ∈ db.documentIds
      · simp [hr, hi]
      · simp [hr, hi]
    · simp [hr]

theorem CreateFolder_ok_iff (db : Db) (env : DbEnv) (name : String)
    (parentID : Option String) (folder : Folder) (db1 : Db) :
    CreateFolder db env name parentID = .ok (folder, db1) ↔
      env.fault = none ∧ db.refOK parentID = true ∧ env.newId ∉ db.folderIds ∧
      folder = { ID := env.newId, ParentID := parentID, Name := name,
                 CreatedAt := env.now, UpdatedAt := env.now } ∧
      db1 = { db with folders := db.folders ++ [folder] } := by
  unfold CreateFolder insertFolder idTaken newFolder
  cases hf : env.fault with
  | some msg => simp
  | none =>
    by_cases hr : db.refOK parentID = true
    · by_cases hi : env.newId ∈ db.folderIds
      · simp [hr, hi]
      · simp only [hr, hi, decide_False, Bool.not_true, Bool.false_eq_true, if_false,
          Except.ok.injEq, Prod.mk.injEq, true_and, not_false_eq_true]
        constructor
        · rintro ⟨h1, h2⟩
          subst h1
          exact ⟨rfl, h2.symm⟩
        · rintro ⟨h1, h2⟩
          subst h1
          exact ⟨rfl, h2.symm⟩
    · simp [hr]

theorem blank_iff (s : String) : blank s = true ↔ TrimSpace s = "" := by
  rw [TrimSpace_eq_empty_iff]
  simp [blank, List.all_eq_true]

/-- C2: a POST to `/api/folders` whose body decodes and whose name is empty or
white space only is answered 400 "folder name is required"; the handler calls
no store method and the store state (so the folder rows) is unchanged. -/
theorem handleFolders_blank_name (db : Db) (env : DbEnv) (r : Request)
    (req : createFolderRequest) (hm : r.Method = "POST")
    (hdec : decodeJSON createFolderRequest.dest r.Body = .ok req)
    (hblank : blank req.Name = true) :
    (handleFolders db env r).resp = writeError 400 "folder name is required" ∧
    (handleFolders db env r).resp.status = 400 ∧
    (handleFolders db env r).calls = [] ∧
    (handleFolders db env r).db = db := by
  have ht : TrimSpace req.Name = "" := (blank_iff _).mp hblank
  simp [handleFolders, hm, hdec, ht, writeError, writeJSON]

theorem handleFolders_blank_name_witness :
    decodeJSON createFolderRequest.dest "\x7b\"name\":\" \\t \"\x7d" = .ok ⟨" \t ", none⟩ ∧
    blank " \t " = true ∧
    (handleFolders emptyDb (quietEnv "f1" 1)
        (request "POST" "/api/folders" "\x7b\"name\":\" \\t \"\x7d")).resp
      = writeError 400 "folder name is required" ∧
    (handleFolders emptyDb (quietEnv "f1" 1)
        (request "POST" "/api/folders" "\x7b\"name\":\" \\t \"\x7d")).calls = [] :=
  have h := handleFolders_blank_name emptyDb (quietEnv "f1" 1)
    (request "POST" "/api/folders" "\x7b\"name\":\" \\t \"\x7d") ⟨" \t ", none⟩ rfl rfl (by decide)
  ⟨rfl, by decide, h.1, h.2.2.1⟩

/-- C3 (as stated) fails: a folder request with a non-blank name whose
`parent_id` names no folder decodes, yet the insert is refused and the answer
is 500 "failed to create folder", not 201. -/
theorem handleFolders_valid_name_not_created :
    decodeJSON createFolderRequest.dest "\x7b\"name\":\"X\",\"parent_id\":\"p1\"\x7d"
      = .ok ⟨"X", some "p1"⟩ ∧
    TrimSpace "X" ≠ "" ∧
    (handleFolders emptyDb (quietEnv "f1" 1)
        (request "POST" "/api/folders" "\x7b\"name\":\"X\",\"parent_id\":\"p1\"\x7d")).resp
      = writeError 500 "failed to create folder" ∧
    (handleFolders emptyDb (quietEnv "f1" 1)
        (request "POST" "/api/folders" "\x7b\"name\":\"X\",\"parent_id\":\"p1\"\x7d")).resp.status
      ≠ 201 :=
  ⟨rfl, by decide, rfl, by decide⟩

/-- C3 (amended): for a POST to `/api/folders` whose body decodes and whose
trimmed name is non-empty, the handler calls `CreateFolder` with the trimmed
name and the request's `parent_id`; when that succeeds the answer is 201 with
the inserted folder, whose name is the trimmed name and whose `parent_id` is
the request's; when it fails the answer is 500 "failed to create folder" and
the store is unchanged.  The call succeeds exactly when the statement does not
fail, the parent exists and the generated id is new. -/
theorem handleFolders_valid_name (db : Db) (env : DbEnv) (r : Request)
    (req : createFolderRequest) (hm : r.Method = "POST")
    (hdec : decodeJSON createFolderRequest.dest r.Body = .ok req)
    (hname : TrimSpace req.Name ≠ "") :
    (handleFolders db env r).calls = [.CreateFolder (TrimSpace req.Name) req.ParentID] ∧
    (∀ folder db1, CreateFolder db env (TrimSpace req.Name) req.ParentID = .ok (folder, db1) →
      (handleFolders db env r).resp = writeJSON 201 (.folder folder) ∧
      folder.Name = TrimSpace req.Name ∧ folder.ParentID = req.ParentID ∧
      (handleFolders db env r).db = db1 ∧ db1.folders = db.folders ++ [folder]) ∧
    (∀ err, CreateFolder db env (TrimSpace req.Name) req.ParentID = .error err →
      (handleFolders db env r).resp = writeError 500 "failed to create folder" ∧
      (handleFolders db env r).db = db) ∧
    ((∃ folder db1, CreateFolder db env (TrimSpace req.Name) req.ParentID = .ok (folder, db1)) ↔
      env.fault = none ∧ db.refOK req.ParentID = true ∧ env.newId ∉ db.folderIds) := by
  refine ⟨?_, ?_, ?_, ?_⟩
  · simp only [handleFolders, hm, hdec, hname]
    cases CreateFolder db env (TrimSpace req.Name) req.ParentID with
    | error e => simp
    | ok p => simp
  · intro folder db1 h
    have h2 := (CreateFolder_ok_iff _ _ _ _ _ _).mp h
    obtain ⟨_, _, _, hfol, hdb⟩ := h2
    refine ⟨?_, ?_, ?_, ?_, ?_⟩
    · simp [handleFolders, hm, hdec, hname, h]
    · rw [hfol]
    · rw [hfol]
    · simp [handleFolders, hm, hdec, hname, h]
    · rw [hdb]
  · intro err h
    simp [handleFolders, hm, hdec, hname, h]
  · constructor
    · rintro ⟨folder, db1, h⟩
      have h2 := (CreateFolder_ok_iff _ _ _ _ _ _).mp h
      exact ⟨h2.1, h2.2.1, h2.2.2.1⟩
    · rintro ⟨h1, h2, h3⟩
      exact ⟨_, _, (CreateFolder_ok_iff _ _ _ _ _ _).mpr ⟨h1, h2, h3, rfl, rfl⟩⟩

theorem handleFolders_valid_name_witness :
    decodeJSON createFolderRequest.dest "\x7b\"name\":\"  Docs \"\x7d" = .ok ⟨"  Docs ", none⟩ ∧
    TrimSpace "  Docs " ≠ "" ∧
    (handleFolders emptyDb (quietEnv "f1" 1)
        (request "POST" "/api/folders" "\x7b\"name\":\"  Docs \"\x7d")).resp
      = writeJSON 201 (.folder ⟨"f1", none, "Docs", 1, 1⟩) :=
  have h := handleFolders_valid_name emptyDb (quietEnv "f1" 1)
    (request "POST" "/api/folders" "\x7b\"name\":\"  Docs \"\x7d") ⟨"  Docs ", none⟩ rfl rfl
    (by decide)
  ⟨rfl, by decide, (h.2.1 ⟨"f1", none, "Docs", 1, 1⟩
    { folders := [⟨"f1", none, "Docs", 1, 1⟩], documents := [] } rfl).1⟩

theorem UpdateDocument_ok_iff (db : Db) (env : DbEnv) (id title content : String)
    (folderID : Option String) (doc : Document) (db1 : Db) :
    UpdateDocument db env id title content folderID = .ok (doc, db1) ↔
      env.fault = none ∧ db.refOK folderID = true ∧
      (∃ old, db.documents.find? (fun d => decide (d.ID = id)) = some old ∧
        doc = old.set env title content folderID) ∧
      db1 = { db with documents := db.documents.map (fun r =>
                if r.ID = id then r.set env title content folderID else r) } := by
  unfold UpdateDocument updateDocument
  cases hf : env.fault with
  | some msg => simp [errorsIs]
  | none =>
    cases hfind : db.documents.find? (fun d => decide (d.ID = id)) with
    | none => simp [errorsIs]
    | some old =>
      by_cases hr : db.refOK folderID = true
      · simp only [hr, Bool.not_true, Bool.false_eq_true, if_false, Except.ok.injEq,
          Prod.mk.injEq, true_and, Option.some.injEq, exists_eq_left']
        constructor
        · rintro ⟨h1, h2⟩
          exact ⟨h1.symm, h2.symm⟩
        · rintro ⟨h1, h2⟩
          exact ⟨h1.symm, h2.symm⟩
      · simp [hr, errorsIs]

theorem UpdateDocument_error (db : Db) (env : DbEnv) (id title content : String)
    (folderID : Option String) (err : GoError)
    (h : UpdateDocument db env id title content folderID = .error err) :
    (err = .ErrNotFound ↔
      env.fault = none ∧ db.documents.find? (fun d => decide (d.ID = id)) = none) := by
  unfold UpdateDocument updateDocument at h
  cases hf : env.fault with
  | some msg =>
    simp [hf, errorsIs] at h
    simp [← h]
  | none =>
    cases hfind : db.documents.find? (fun d => decide (d.ID = id)) with
    | none =>
      simp [hf, hfind, errorsIs] at h
      simp [← h]
    | some old =>
      by_cases hr : db.refOK folderID = true
      · simp [hf, hfind, hr] at h
      · simp [hf, hfind, hr, errorsIs] at h
        simp [← h]

theorem GetDocument_eq (db : Db) (env : DbEnv) (id : String) :
    GetDocument db env id =
      match env.fault with
      | some msg => .error (.other msg)
      | none =>
        match db.documents.find? (fun d => decide (d.ID = id)) with
        | some d => .ok d
        | none => .error .ErrNotFound := by
  unfold GetDocument selectDocument
  cases env.fault with
  | some msg => simp [errorsIs]
  | none =>
    cases db.documents.find? (fun d => decide (d.ID = id)) with
    | none => simp [errorsIs]
    | some d => simp

theorem find?_id_eq_none {docs : List Document} {id : String}
    (h : ∀ d ∈ docs, d.ID ≠ id) : docs.find? (fun d => decide (d.ID = id)) = none := by
  rw [List.find?_eq_none]
  intro d hd
  simpa using h d hd

theorem find?_id_append_new {docs : List Document} {doc : Document}
    (h : doc.ID ∉ docs.map (·.ID)) :
    (docs ++ [doc]).find? (fun d => decide (d.ID = doc.ID)) = some doc := by
  have h1 : docs.find? (fun d => decide (d.ID = doc.ID)) = none := by
    apply find?_id_eq_none
    intro d hd heq
    exact h (by rw [← heq]; exact List.mem_map_of_mem _ hd)
  simp [List.find?_append, h1]

theorem mem_map_set_of_find? {docs : List Document} {id : String} {old : Document}
    (f : Document → Document)
    (h : docs.find? (fun d => decide (d.ID = id)) = some old) :
    f old ∈ docs.map (fun r => if r.ID = id then f r else r) := by
  have h1 := List.mem_of_find?_eq_some h
  have h2 : old.ID = id := by simpa using List.find?_some h
  rw [List.mem_map]
  exact ⟨old, h1, by simp [h2]⟩

/-- The title a document handler hands to the store. -/
theorem title_if_blank (t : String) :
    (if TrimSpace t = "" then "Untitled" else TrimSpace t)
      = (if blank t then "Untitled" else TrimSpace t) := by
  by_cases hb : blank t = true
  · simp [hb, (blank_iff _).mp hb]
  · have : TrimSpace t ≠ "" := fun h => hb ((blank_iff _).mpr h)
    simp [hb, this]

theorem handleDocuments_ok {db : Db} {env : DbEnv} {r : Request}
    {req : createDocumentRequest} {doc : Document} {db1 : Db} (hm : r.Method = "POST")
    (hdec : decodeJSON createDocumentRequest.dest r.Body = .ok req)
    (hc : CreateDocument db env (if blank req.Title then "Untitled" else TrimSpace req.Title)
      req.Content req.FolderID = .ok (doc, db1)) :
    handleDocuments db env r =
      { resp := writeJSON 201 (.document doc), db := db1,
        calls := [.CreateDocument (if blank req.Title then "Untitled" else TrimSpace req.Title)
          req.Content req.FolderID] } := by
  simp only [handleDocuments, hm, hdec, title_if_blank, hc]
  simp

theorem handleDocuments_error {db : Db} {env : DbEnv} {r : Request}
    {req : createDocumentRequest} {err : GoError} (hm : r.Method = "POST")
    (hdec : decodeJSON createDocumentRequest.dest r.Body = .ok req)
    (hc : CreateDocument db env (if blank req.Title then "Untitled" else TrimSpace req.Title)
      req.Content req.FolderID = .error err) :
    handleDocuments db env r =
      { resp := writeError 500 "failed to create document", db := db,
        calls := [.CreateDocument (if blank req.Title then "Untitled" else TrimSpace req.Title)
          req.Content req.FolderID] } := by
  simp only [handleDocuments, hm, hdec, title_if_blank, hc]
  simp

theorem handleDocument_put_ok {db : Db} {env : DbEnv} {r : Request}
    {req : updateDocumentRequest} {doc : Document} {db1 : Db}
    (hid : TrimPrefix r.Path "/api/documents/" ≠ "") (hm : r.Method = "PUT")
    (hdec : decodeJSON updateDocumentRequest.dest r.Body = .ok req)
    (hc : UpdateDocument db env (TrimPrefix r.Path "/api/documents/")
      (if blank req.Title then "Untitled" else TrimSpace req.Title)
      req.Content req.FolderID = .ok (doc, db1)) :
    handleDocument db env r =
      { resp := writeJSON 200 (.document doc), db := db1,
        calls := [.UpdateDocument (TrimPrefix r.Path "/api/documents/")
          (if blank req.Title then "Untitled" else TrimSpace req.Title)
          req.Content req.FolderID] } := by
  have hput : ("PUT" : String) ≠ "GET" := by decide
  simp only [handleDocument, hid, hm, hdec, title_if_blank, hc, hput, if_false]
  simp

theorem handleDocument_put_error {db : Db} {env : DbEnv} {r : Request}
    {req : updateDocumentRequest} {err : GoError}
    (hid : TrimPrefix r.Path "/api/documents/" ≠ "") (hm : r.Method = "PUT")
    (hdec : decodeJSON updateDocumentRequest.dest r.Body = .ok req)
    (hc : UpdateDocument db env (TrimPrefix r.Path "/api/documents/")
      (if blank req.Title then "Untitled" else TrimSpace req.Title)
      req.Content req.FolderID = .error err) :
    handleDocument db env r =
      { resp := if err = .ErrNotFound then writeError 404 "document not found"
                else writeError 500 "failed to update document",
        db := db,
        calls := [.UpdateDocument (TrimPrefix r.Path "/api/documents/")
          (if blank req.Title then "Untitled" else TrimSpace req.Title)
          req.Content req.FolderID] } := by
  have hput : ("PUT" : String) ≠ "GET" := by decide
  simp only [handleDocument, hid, hm, hdec, title_if_blank, hc, hput, if_false]
  by_cases he : err = .ErrNotFound <;> simp [he, errorsIs]

theorem handleDocument_get {db : Db} {env : DbEnv} {r : Request}
    (hid : TrimPrefix r.Path "/api/documents/" ≠ "") (hm : r.Method = "GET") :
    handleDocument db env r =
      { resp :=
          match GetDocument db env (TrimPrefix r.Path "/api/documents/") with
          | .ok doc => writeJSON 200 (.document doc)
          | .error err =>
            if err = .ErrNotFound then writeError 404 "document not found"
            else writeError 500 "failed to load document",
        db := db, calls := [.GetDocument (TrimPrefix r.Path "/api/documents/")] } := by
  simp only [handleDocument, hid, hm, if_false, if_true]
  cases GetDocument db env (TrimPrefix r.Path "/api/documents/") with
  | ok doc => simp
  | error err => by_cases he : err = .ErrNotFound <;> simp [he, errorsIs]

/-- C4: for a document creation, and for a document update, whose body
decodes, the title handed to the store is "Untitled" when the request title is
missing (the field keeps its zero value), empty or white space only, and the
trimmed request title, which is then non-empty, otherwise; the answer is never
400; and when a document is returned its title is that title and it is a row
of the resulting store (after an update every row with the id carries it). -/
theorem title_normalised (db : Db) (env : DbEnv) (r : Request)
    (creq : createDocumentRequest) (ureq : updateDocumentRequest) :
    (r.Method = "POST" → decodeJSON createDocumentRequest.dest r.Body = .ok creq →
      (handleDocuments db env r).calls =
        [.CreateDocument (if blank creq.Title then "Untitled" else TrimSpace creq.Title)
          creq.Content creq.FolderID] ∧
      (blank creq.Title = false → TrimSpace creq.Title ≠ "") ∧
      (handleDocuments db env r).resp.status ≠ 400 ∧
      (∀ doc, (handleDocuments db env r).resp.payload = .document doc →
        doc.Title = (if blank creq.Title then "Untitled" else TrimSpace creq.Title) ∧
        doc ∈ (handleDocuments db env r).db.documents)) ∧
    (TrimPrefix r.Path "/api/documents/" ≠ "" → r.Method = "PUT" →
      decodeJSON updateDocumentRequest.dest r.Body = .ok ureq →
      (handleDocument db env r).calls =
        [.UpdateDocument (TrimPrefix r.Path "/api/documents/")
          (if blank ureq.Title then "Untitled" else TrimSpace ureq.Title)
          ureq.Content ureq.FolderID] ∧
      (blank ureq.Title = false → TrimSpace ureq.Title ≠ "") ∧
      (handleDocument db env r).resp.status ≠ 400 ∧
      (∀ doc, (handleDocument db env r).resp.payload = .document doc →
        doc.Title = (if blank ureq.Title then "Untitled" else TrimSpace ureq.Title) ∧
        doc ∈ (handleDocument db env r).db.documents ∧
        ∀ d ∈ (handleDocument db env r).db.documents,
          d.ID = TrimPrefix r.Path "/api/documents/" →
          d.Title = (if blank ureq.Title then "Untitled" else TrimSpace ureq.Title))) := by
  constructor
  · intro hm hdec
    have hnb : blank creq.Title = false → TrimSpace creq.Title ≠ "" := by
      intro hb h
      rw [(blank_iff _).mpr h] at hb
      exact Bool.noConfusion hb
    cases hc : CreateDocument db env
        (if blank creq.Title then "Untitled" else TrimSpace creq.Title)
        creq.Content creq.FolderID with
    | error e =>
      rw [handleDocuments_error hm hdec hc]
      exact ⟨rfl, hnb, by simp [writeError, writeJSON], by simp [writeError, writeJSON]⟩
    | ok p =>
      obtain ⟨d, db1⟩ := p
      rw [handleDocuments_ok hm hdec hc]
      obtain ⟨_, _, _, hd, hdb⟩ := (CreateDocument_ok_iff _ _ _ _ _ _ _).mp hc
      refine ⟨rfl, hnb, by simp [writeJSON], ?_⟩
      intro doc h
      simp only [writeJSON, Payload.document.injEq] at h
      subst h
      refine ⟨by rw [hd], ?_⟩
      show d ∈ db1.documents
      rw [hdb]
      simp
  · intro hid hm hdec
    have hnb : blank ureq.Title = false → TrimSpace ureq.Title ≠ "" := by
      intro hb h
      rw [(blank_iff _).mpr h] at hb
      exact Bool.noConfusion hb
    cases hc : UpdateDocument db env (TrimPrefix r.Path "/api/documents/")
        (if blank ureq.Title then "Untitled" else TrimSpace ureq.Title)
        ureq.Content ureq.FolderID with
    | error e =>
      rw [handleDocument_put_error hid hm hdec hc]
      refine ⟨rfl, hnb, ?_, ?_⟩
      · by_cases he : e = .ErrNotFound <;> simp [he, writeError, writeJSON]
      · intro doc h
        by_cases he : e = .ErrNotFound <;> simp [he, writeError, writeJSON] at h
    | ok p =>
      obtain ⟨d, db1⟩ := p
      rw [handleDocument_put_ok hid hm hdec hc]
      obtain ⟨_, _, ⟨old, hfind, hd⟩, hdb⟩ := (UpdateDocument_ok_iff _ _ _ _ _ _ _ _).mp hc
      refine ⟨rfl, hnb, by simp [writeJSON], ?_⟩
      intro doc h
      simp only [writeJSON, Payload.document.injEq] at h
      subst h
      refine ⟨by rw [hd]; rfl, ?_, ?_⟩
      · show d ∈ db1.documents
        rw [hdb, hd]
        exact mem_map_set_of_find? _ hfind
      · show ∀ x ∈ db1.documents, _
        rw [hdb]
        intro x hx hxid
        simp only [List.mem_map] at hx
        obtain ⟨y, _, hy⟩ := hx
        by_cases hyid : y.ID = TrimPrefix r.Path "/api/documents/"
        · rw [if_pos hyid] at hy
          rw [← hy]; rfl
        · rw [if_neg hyid] at hy
          rw [hy] at hyid
          exact absurd hxid hyid

theorem title_normalised_witness :
    decodeJSON createDocumentRequest.dest "\x7b\"content\":\"hi\"\x7d" = .ok ⟨"", none, "hi"⟩ ∧
    (handleDocuments emptyDb (quietEnv "d1" 1)
        (request "POST" "/api/documents" "\x7b\"content\":\"hi\"\x7d")).calls
      = [.CreateDocument "Untitled" "hi" none] ∧
    decodeJSON updateDocumentRequest.dest "\x7b\"title\":\" Plan \"\x7d" = .ok ⟨" Plan ", none, ""⟩ ∧
    (handleDocument emptyDb (quietEnv "d1" 1)
        (request "PUT" "/api/documents/d7" "\x7b\"title\":\" Plan \"\x7d")).calls
      = [.UpdateDocument "d7" "Plan" "" none] :=
  ⟨rfl,
   ((title_normalised emptyDb (quietEnv "d1" 1)
      (request "POST" "/api/documents" "\x7b\"content\":\"hi\"\x7d") ⟨"", none, "hi"⟩
      ⟨"", none, ""⟩).1 rfl rfl).1,
   rfl,
   ((title_normalised emptyDb (quietEnv "d1" 1)
      (request "PUT" "/api/documents/d7" "\x7b\"title\":\" Plan \"\x7d") ⟨"", none, ""⟩
      ⟨" Plan ", none, ""⟩).2 (by decide) rfl rfl).1⟩

/-- C5: for a GET of `/api/documents/{id}` with a non-empty id that no
document row carries: when the query runs, `GetDocument` returns `ErrNotFound`
and the answer is 404 with the JSON body `{"error":"document not found"}`
(followed by the encoder's newline); when the query fails, `GetDocument`
passes that error on and the answer is 500.  In general the handler answers
404 to `ErrNotFound` and 500 to every other error; the store is unchanged. -/
theorem handleDocument_get_missing (db : Db) (env : DbEnv) (r : Request)
    (hm : r.Method = "GET") (hid : TrimPrefix r.Path "/api/documents/" ≠ "")
    (hno : ∀ d ∈ db.documents, d.ID ≠ TrimPrefix r.Path "/api/documents/") :
    (env.fault = none →
      GetDocument db env (TrimPrefix r.Path "/api/documents/") = .error .ErrNotFound ∧
      (handleDocument db env r).resp = writeError 404 "document not found" ∧
      (handleDocument db env r).resp.status = 404 ∧
      (handleDocument db env r).resp.payload = .error ⟨"document not found"⟩ ∧
      errorResponse.body ⟨"document not found"⟩ = "\x7b\"error\":\"document not found\"\x7d\n") ∧
    (∀ msg, env.fault = some msg →
      GetDocument db env (TrimPrefix r.Path "/api/documents/") = .error (.other msg) ∧
      (handleDocument db env r).resp = writeError 500 "failed to load document") ∧
    (∀ err, GetDocument db env (TrimPrefix r.Path "/api/documents/") = .error err →
      (handleDocument db env r).resp =
        if err = .ErrNotFound then writeError 404 "document not found"
        else writeError 500 "failed to load document") ∧
    (handleDocument db env r).db = db ∧
    (handleDocument db env r).calls = [.GetDocument (TrimPrefix r.Path "/api/documents/")] := by
  have hfind := find?_id_eq_none hno
  rw [handleDocument_get hid hm]
  refine ⟨?_, ?_, ?_, rfl, rfl⟩
  · intro hf
    have hg : GetDocument db env (TrimPrefix r.Path "/api/documents/") = .error .ErrNotFound := by
      rw [GetDocument_eq, hf, hfind]
    rw [hg]
    exact ⟨rfl, rfl, rfl, rfl, by decide⟩
  · intro msg hf
    have hg : GetDocument db env (TrimPrefix r.Path "/api/documents/")
        = .error (.other msg) := by
      rw [GetDocument_eq, hf]
    rw [hg]
    exact ⟨rfl, rfl⟩
  · intro err hg
    rw [hg]

theorem handleDocument_get_missing_witness :
    TrimPrefix "/api/documents/nope" "/api/documents/" ≠ "" ∧
    (handleDocument emptyDb (quietEnv "d1" 1) (request "GET" "/api/documents/nope" "")).resp
      = writeError 404 "document not found" :=
  ⟨by decide,
   ((handleDocument_get_missing emptyDb (quietEnv "d1" 1)
      (request "GET" "/api/documents/nope" "") rfl (by decide)
      (by intro d hd; cases hd)).1 rfl).2.1⟩

/-- C1: when a POST to `/api/documents` decodes to a request with content `C`
and the insert succeeds, the answer is 201 with the inserted document; a later
GET of `/api/documents/{id}` with the returned (non-empty) id, on the store the
creation left and with the lookup query running, is answered 200 with that
same document (same id, title and folder id), and its content is `C`. -/
theorem create_then_get (db : Db) (env1 env2 : DbEnv) (r r2 : Request)
    (req : createDocumentRequest) (doc : Document) (db1 : Db)
    (hm : r.Method = "POST")
    (hdec : decodeJSON createDocumentRequest.dest r.Body = .ok req)
    (hins : CreateDocument db env1 (if blank req.Title then "Untitled" else TrimSpace req.Title)
      req.Content req.FolderID = .ok (doc, db1))
    (hid : doc.ID ≠ "") (hm2 : r2.Method = "GET")
    (hpath : r2.Path = "/api/documents/" ++ doc.ID) (hrun : env2.fault = none) :
    (handleDocuments db env1 r).resp = writeJSON 201 (.document doc) ∧
    (handleDocuments db env1 r).db = db1 ∧
    (handleDocument db1 env2 r2).resp = writeJSON 200 (.document doc) ∧
    doc.Content = req.Content ∧ doc.FolderID = req.FolderID ∧
    (handleDocument db1 env2 r2).db = db1 := by
  obtain ⟨_, _, hnew, hd, hdb⟩ := (CreateDocument_ok_iff _ _ _ _ _ _ _).mp hins
  have hidp : TrimPrefix r2.Path "/api/documents/" = doc.ID := by
    rw [hpath, TrimPrefix_append]
  have hid2 : TrimPrefix r2.Path "/api/documents/" ≠ "" := by rw [hidp]; exact hid
  have hnew2 : doc.ID ∉ db.documents.map (·.ID) := by
    have : doc.ID = env1.newId := by rw [hd]
    rw [this]; exact hnew
  have hg : GetDocument db1 env2 (TrimPrefix r2.Path "/api/documents/") = .ok doc := by
    rw [GetDocument_eq, hrun, hidp, hdb]
    simp only
    rw [find?_id_append_new hnew2]
  rw [handleDocuments_ok hm hdec hins, handleDocument_get hid2 hm2, hg]
  refine ⟨rfl, rfl, rfl, ?_, ?_, rfl⟩
  · rw [hd]
  · rw [hd]

theorem create_then_get_witness :
    decodeJSON createDocumentRequest.dest "\x7b\"title\":\"T\",\"content\":\"\"\x7d"
      = .ok ⟨"T", none, ""⟩ ∧
    (handleDocuments emptyDb (quietEnv "d1" 1)
        (request "POST" "/api/documents" "\x7b\"title\":\"T\",\"content\":\"\"\x7d")).resp
      = writeJSON 201 (.document ⟨"d1", none, "T", "", 1, 1⟩) ∧
    (handleDocument { folders := [], documents := [⟨"d1", none, "T", "", 1, 1⟩] }
        (quietEnv "d2" 2) (request "GET" "/api/documents/d1" "")).resp
      = writeJSON 200 (.document ⟨"d1", none, "T", "", 1, 1⟩) :=
  have h := create_then_get emptyDb (quietEnv "d1" 1) (quietEnv "d2" 2)
    (request "POST" "/api/documents" "\x7b\"title\":\"T\",\"content\":\"\"\x7d")
    (request "GET" "/api/documents/d1" "") ⟨"T", none, ""⟩ ⟨"d1", none, "T", "", 1, 1⟩
    { folders := [], documents := [⟨"d1", none, "T", "", 1, 1⟩] }
    rfl rfl rfl (by decide) rfl rfl rfl
  ⟨rfl, h.1, h.2.2.1⟩

/-- C7 (failing input): `/api/health` is an API route whose only listed
method is GET, yet a POST to it is answered 200 `{"status":"ok"}`, not 405:
`handleHealth` never looks at the method. -/
theorem handleHealth_ignores_method (coll : Collation) (db : Db) (env : DbEnv) :
    routeOf "/api/health" = some .health ∧
    "POST" ∉ Route.listedMethods .health ∧
    (Route.handle coll db env (request "POST" "/api/health" "") .health).resp
      = writeJSON 200 .health ∧
    (Route.handle coll db env (request "POST" "/api/health" "") .health).resp.status ≠ 405 :=
  ⟨by decide, by decide, rfl, by simp [Route.handle, handleHealth, writeJSON]⟩

/-- The other four handlers do check the method: a method the route table does
not list is answered 405 (for `/api/documents/{id}` when the id is not empty). -/
theorem unlisted_method_rejected (coll : Collation) (db : Db) (env : DbEnv) (r : Request)
    (route : Route) (hroute : route ≠ .health)
    (hid : route = .document → TrimPrefix r.Path "/api/documents/" ≠ "")
    (hm : r.Method ∉ route.listedMethods) :
    (route.handle coll db env r).resp = writeError 405 "method not allowed" := by
  cases route with
  | health => exact absurd rfl hroute
  | drive =>
    have h : r.Method ≠ "GET" := by simpa [Route.listedMethods] using hm
    simp [Route.handle, handleDrive, h]
  | folders =>
    have h : r.Method ≠ "POST" := by simpa [Route.listedMethods] using hm
    simp [Route.handle, handleFolders, h]
  | documents =>
    have h : r.Method ≠ "POST" := by simpa [Route.listedMethods] using hm
    simp [Route.handle, handleDocuments, h]
  | document =>
    have h : r.Method ≠ "GET" ∧ r.Method ≠ "PUT" := by
      simpa [Route.listedMethods] using hm
    simp [Route.handle, handleDocument, h.1, h.2, hid rfl]

theorem sqlHolds_driveCondition (p ref : Option String) :
    sqlHolds (driveCondition p ref) = decide (ref = p) := by
  cases p <;> cases ref <;>
    simp [sqlHolds, driveCondition, sqlOr, sqlAnd, sqlIsNull, sqlEq]
  rename_i a b
  by_cases h : b = a <;> simp [h]

theorem selectFolders_eq (coll : Collation) (db : Db) (p : Option String) :
    selectFolders coll db p = (ListDriveSpec coll db p).Folders := by
  simp only [selectFolders, ListDriveSpec, sqlHolds_driveCondition]

theorem selectDocuments_eq (coll : Collation) (db : Db) (p : Option String) :
    selectDocuments db p = (ListDriveSpec coll db p).Documents := by
  simp only [selectDocuments, ListDriveSpec, sqlHolds_driveCondition]

theorem queryGet_absent {q : List (String × String)} {key : String}
    (h : ∀ kv ∈ q, kv.1 ≠ key) : queryGet q key = "" := by
  have : q.find? (fun kv => decide (kv.1 = key)) = none := by
    rw [List.find?_eq_none]
    intro kv hkv
    simpa using h kv hkv
  simp [queryGet, this]

/-- C8: when both queries run, `ListDrive` returns exactly the listing of its
reference definition: the folders are the folder rows whose `parent_id` equals
the given optional id (NULL for no id), each once, sorted by ascending name
(for a total, transitive collation); the documents are the document rows whose
`folder_id` equals it, each once and without content, sorted by descending
`updated_at`.  A GET of `/api/drive` without `parent_id` lists with no id, so
every listed folder and document is at root level. -/
theorem ListDrive_eq_spec (coll : Collation) (db : Db) (env : DbEnv)
    (parentID : Option String) (hrun : env.fault = none) (hrun2 : env.faultNext = none) :
    ListDrive coll db env parentID = .ok (ListDriveSpec coll db parentID) ∧
    (ListDriveSpec coll db parentID).Folders.Perm
      (db.folders.filter (fun f => decide (f.ParentID = parentID))) ∧
    ((∀ a b, coll a b = true ∨ coll b a = true) →
      (∀ a b c, coll a b = true → coll b c = true → coll a c = true) →
      (ListDriveSpec coll db parentID).Folders.Sorted (fun a b => coll a.Name b.Name = true)) ∧
    (ListDriveSpec coll db parentID).Documents.Perm
      ((db.documents.filter (fun d => decide (d.FolderID = parentID))).map
        Document.withoutContent) ∧
    (ListDriveSpec coll db parentID).Documents.Sorted (fun a b => b.UpdatedAt ≤ a.UpdatedAt) ∧
    (∀ r : Request, r.Method = "GET" → (∀ kv ∈ r.Query, kv.1 ≠ "parent_id") →
      parseOptionalID (queryGet r.Query "parent_id") = none ∧
      (handleDrive coll db env r).resp = writeJSON 200 (.listing (ListDriveSpec coll db none)) ∧
      (∀ f ∈ (ListDriveSpec coll db none).Folders, f ∈ db.folders ∧ f.ParentID = none) ∧
      (∀ d ∈ (ListDriveSpec coll db none).Documents, d.FolderID = none)) := by
  have hL : ∀ p, ListDrive coll db env p = .ok (ListDriveSpec coll db p) := by
    intro p
    simp only [ListDrive, hrun, hrun2, selectFolders_eq, selectDocuments_eq coll]
  refine ⟨hL _, ?_, ?_, ?_, ?_, ?_⟩
  · exact List.perm_insertionSort _ _
  · intro htot htrans
    haveI : IsTotal Folder (fun a b => coll a.Name b.Name = true) :=
      ⟨fun a b => htot a.Name b.Name⟩
    haveI : IsTrans Folder (fun a b => coll a.Name b.Name = true) :=
      ⟨fun a b c => htrans a.Name b.Name c.Name⟩
    exact List.sorted_insertionSort _ _
  · exact (List.perm_insertionSort _ _).map _
  · haveI : IsTotal Document (fun a b => b.UpdatedAt ≤ a.UpdatedAt) :=
      ⟨fun a b => Nat.le_total b.UpdatedAt a.UpdatedAt⟩
    haveI : IsTrans Document (fun a b => b.UpdatedAt ≤ a.UpdatedAt) :=
      ⟨fun a b c h1 h2 => Nat.le_trans h2 h1⟩
    have hs := List.sorted_insertionSort (fun a b : Document => b.UpdatedAt ≤ a.UpdatedAt)
      (db.documents.filter (fun d => decide (d.FolderID = parentID)))
    unfold ListDriveSpec
    simp only [List.Sorted, List.pairwise_map]
    exact hs
  · intro r hm habs
    have hq := queryGet_absent habs
    have hp : parseOptionalID (queryGet r.Query "parent_id") = none := by
      rw [hq]; decide
    refine ⟨hp, ?_, ?_, ?_⟩
    · simp [handleDrive, hm, hp, hL]
    · intro f hf
      have := (List.perm_insertionSort _ _).subset hf
      simpa using this
    · intro d hd
      simp only [ListDriveSpec, List.mem_map] at hd
      obtain ⟨x, hx, hxd⟩ := hd
      have := (List.perm_insertionSort _ _).subset hx
      have hx2 : x.FolderID = none := by simpa using (List.mem_filter.mp this).2
      rw [← hxd]
      exact hx2

theorem ListDrive_eq_spec_witness :
    (quietEnv "x" 9).fault = none ∧ (quietEnv "x" 9).faultNext = none ∧
    ListDrive codePointOrder sampleDb (quietEnv "x" 9) none
      = .ok { Folders := [⟨"f1", none, "a", 1, 1⟩, ⟨"f2", none, "b", 1, 1⟩],
              Documents := [⟨"d2", none, "new", "", 2, 7⟩, ⟨"d1", none, "old", "", 1, 3⟩] } :=
  ⟨rfl, rfl,
   (ListDrive_eq_spec codePointOrder sampleDb (quietEnv "x" 9) none rfl rfl).1.trans
     (congrArg Except.ok (by decide))⟩

/-- C9 (as stated) fails: a document last updated at instant 10 is updated
while the database clock reads 5; the update succeeds and `updated_at` becomes
5, which is not later than 10. -/
theorem UpdateDocument_not_later :
    UpdateDocument { folders := [], documents := [⟨"d1", none, "t", "c", 1, 10⟩] }
        (quietEnv "x" 5) "d1" "t2" "c2" none
      = .ok (⟨"d1", none, "t2", "c2", 1, 5⟩,
             { folders := [], documents := [⟨"d1", none, "t2", "c2", 1, 5⟩] }) ∧
    ¬ ((⟨"d1", none, "t", "c", 1, 10⟩ : Document).UpdatedAt
        < (⟨"d1", none, "t2", "c2", 1, 5⟩ : Document).UpdatedAt) :=
  ⟨rfl, by decide⟩

/-- C9 (amended): when the id matches a document (`old` being the row
returned first), the statement runs and the folder reference is valid,
`UpdateDocument` succeeds; the returned document is a row of the new store
with the supplied title, content and folder id, with `updated_at` equal to the
database clock at the update (hence strictly later than the prior `updated_at`
exactly when the clock reads later than it), and with the id and `created_at`
of the old row.  Rows with another id and the folders are unchanged, and every
row with the id is rewritten in the same way. -/
theorem UpdateDocument_effect (db : Db) (env : DbEnv) (id title content : String)
    (folderID : Option String) (old : Document)
    (hold : db.documents.find? (fun d => decide (d.ID = id)) = some old)
    (hrun : env.fault = none) (href : db.refOK folderID = true) :
    ∃ doc db1, UpdateDocument db env id title content folderID = .ok (doc, db1) ∧
      doc.Title = title ∧ doc.Content = content ∧ doc.FolderID = folderID ∧
      doc.UpdatedAt = env.now ∧
      (old.UpdatedAt < doc.UpdatedAt ↔ old.UpdatedAt < env.now) ∧
      doc.CreatedAt = old.CreatedAt ∧ doc.ID = old.ID ∧ doc.ID = id ∧
      doc ∈ db1.documents ∧
      db1.folders = db.folders ∧
      db1.documents = db.documents.map (fun r =>
        if r.ID = id then
          { r with Title := title, Content := content, FolderID := folderID,
                   UpdatedAt := env.now }
        else r) := by
  have hidold : old.ID = id := by simpa using List.find?_some hold
  refine ⟨old.set env title content folderID,
    { db with documents := db.documents.map (fun r =>
        if r.ID = id then r.set env title content folderID else r) }, ?_, ?_⟩
  · exact (UpdateDocument_ok_iff _ _ _ _ _ _ _ _).mpr ⟨hrun, href, ⟨old, hold, rfl⟩, rfl⟩
  · exact ⟨rfl, rfl, rfl, rfl, Iff.rfl, rfl, rfl, hidold,
      mem_map_set_of_find? _ hold, rfl, rfl⟩

theorem UpdateDocument_effect_witness :
    sampleDb.documents.find? (fun d => decide (d.ID = "d1"))
      = some ⟨"d1", none, "old", "text", 1, 3⟩ ∧
    UpdateDocument sampleDb (quietEnv "x" 9) "d1" "t" "c" (some "f1")
      = .ok (⟨"d1", some "f1", "t", "c", 1, 9⟩,
             { sampleDb with documents :=
                 [⟨"d1", some "f1", "t", "c", 1, 9⟩, ⟨"d3", some "f1", "in", "body", 2, 5⟩,
                  ⟨"d2", none, "new", "", 2, 7⟩] }) :=
  have h := UpdateDocument_effect sampleDb (quietEnv "x" 9) "d1" "t" "c" (some "f1")
    ⟨"d1", none, "old", "text", 1, 3⟩ rfl rfl (by decide)
  ⟨rfl, h.elim (fun _ h1 => h1.elim (fun _ _ => rfl))⟩

theorem content_key_iff (d : Document) :
    "content" ∈ (Encoded.obj d.members).keys ↔ d.Content ≠ "" := by
  by_cases h : d.Content = "" <;> simp [Encoded.keys, Document.members, h]

theorem documentEntries_listing (l : DriveListing) :
    (Payload.encode (.listing l)).documentEntries
      = l.Documents.map (fun d => Encoded.obj d.members) := by
  simp [Payload.encode, Encoded.documentEntries, Encoded.get, Encoded.items]

/-- C10 (as stated) fails: a creation without `content` succeeds with 201 and
the encoded response has no `content` member. -/
theorem create_response_without_content :
    (handleDocuments emptyDb (quietEnv "d1" 1)
        (request "POST" "/api/documents" "\x7b\"title\":\"T\"\x7d")).resp
      = writeJSON 201 (.document ⟨"d1", none, "T", "", 1, 1⟩) ∧
    "content" ∉ (Payload.encode
      (handleDocuments emptyDb (quietEnv "d1" 1)
        (request "POST" "/api/documents" "\x7b\"title\":\"T\"\x7d")).resp.payload).keys :=
  ⟨rfl, by decide⟩

/-- C10 (amended): the encoded response of a successful document creation has
a `content` member exactly when the submitted content is not the empty string
(empty or missing content is left out), whereas no document entry of an encoded
drive listing has a `content` member, whatever content is stored. -/
theorem content_member (coll : Collation) (db : Db) (env : DbEnv) (r : Request)
    (req : createDocumentRequest) :
    (r.Method = "POST" → decodeJSON createDocumentRequest.dest r.Body = .ok req →
      (handleDocuments db env r).resp.status = 201 →
      ∃ doc, (handleDocuments db env r).resp.payload = .document doc ∧
        doc.Content = req.Content ∧
        ("content" ∈ (Payload.encode (handleDocuments db env r).resp.payload).keys ↔
          req.Content ≠ "")) ∧
    ((handleDrive coll db env r).resp.status = 200 →
      ∃ l, (handleDrive coll db env r).resp.payload = .listing l ∧
        (∀ d ∈ l.Documents, d.Content = "") ∧
        ∀ e ∈ (Payload.encode (handleDrive coll db env r).resp.payload).documentEntries,
          "content" ∉ e.keys) := by
  constructor
  · intro hm hdec
    cases hc : CreateDocument db env
        (if blank req.Title then "Untitled" else TrimSpace req.Title)
        req.Content req.FolderID with
    | error e =>
      rw [handleDocuments_error hm hdec hc]
      intro h
      simp [writeError, writeJSON] at h
    | ok p =>
      obtain ⟨d, db1⟩ := p
      rw [handleDocuments_ok hm hdec hc]
      obtain ⟨_, _, _, hd, _⟩ := (CreateDocument_ok_iff _ _ _ _ _ _ _).mp hc
      intro _
      have hcont : d.Content = req.Content := by rw [hd]
      refine ⟨d, rfl, hcont, ?_⟩
      show "content" ∈ (Encoded.obj d.members).keys ↔ _
      rw [content_key_iff, hcont]
  · intro hs
    by_cases hm : r.Method = "GET"
    · cases hl : ListDrive coll db env
          (parseOptionalID (queryGet r.Query "parent_id")) with
      | error e =>
        simp [handleDrive, hm, hl, writeError, writeJSON] at hs
      | ok l =>
        have hdocs : ∀ d ∈ l.Documents, d.Content = "" := by
          intro d hd
          unfold ListDrive at hl
          cases hf : env.fault with
          | some msg => simp [hf] at hl
          | none =>
            cases hf2 : env.faultNext with
            | some msg => simp [hf, hf2] at hl
            | none =>
              simp only [hf, hf2, Except.ok.injEq] at hl
              rw [← hl] at hd
              simp only [selectDocuments, List.mem_map] at hd
              obtain ⟨x, _, hx⟩ := hd
              rw [← hx]; rfl
        refine ⟨l, by simp [handleDrive, hm, hl, writeJSON], hdocs, ?_⟩
        have hp : (handleDrive coll db env r).resp.payload = .listing l := by
          simp [handleDrive, hm, hl, writeJSON]
        rw [hp, documentEntries_listing]
        intro e he
        simp only [List.mem_map] at he
        obtain ⟨d, hd, hde⟩ := he
        rw [← hde, content_key_iff]
        simp [hdocs d hd]
    · simp [handleDrive, hm, writeError, writeJSON] at hs

theorem content_member_witness :
    decodeJSON createDocumentRequest.dest "\x7b\"content\":\"hi\"\x7d" = .ok ⟨"", none, "hi"⟩ ∧
    "content" ∈ (Payload.encode (handleDocuments sampleDb (quietEnv "d9" 9)
      (request "POST" "/api/documents" "\x7b\"content\":\"hi\"\x7d")).resp.payload).keys ∧
    (handleDrive codePointOrder sampleDb (quietEnv "d9" 9)
      (request "GET" "/api/drive" "")).resp.status = 200 ∧
    (∃ l, (handleDrive codePointOrder sampleDb (quietEnv "d9" 9)
        (request "GET" "/api/drive" "")).resp.payload = .listing l ∧
      ∀ d ∈ l.Documents, d.Content = "") :=
  have hpost := content_member codePointOrder sampleDb (quietEnv "d9" 9)
    (request "POST" "/api/documents" "\x7b\"content\":\"hi\"\x7d") ⟨"", none, "hi"⟩
  have hget := content_member codePointOrder sampleDb (quietEnv "d9" 9)
    (request "GET" "/api/drive" "") ⟨"", none, "hi"⟩
  ⟨rfl, (hpost.1 rfl rfl (by decide)).elim (fun _ h1 => h1.2.2.mpr (by decide)), by decide,
   (hget.2 (by decide)).elim (fun l h1 => ⟨l, h1.1, h1.2.1⟩)⟩

theorem storeMembers_isSome {α : Type} (setField : String → JSON → α → Option α)
    (acc : String → JSON → Bool)
    (hset : ∀ k v r, (setField k v r).isSome = acc k v)
    (members : List (String × JSON)) (r : α) :
    (storeMembers setField members r).isSome = members.all (fun m => acc m.1 m.2) := by
  induction members generalizing r with
  | nil => simp [storeMembers]
  | cons m rest ih =>
    obtain ⟨k, v⟩ := m
    have h := hset k v r
    cases hs : setField k v r with
    | none =>
      rw [hs] at h
      simp [storeMembers, hs, ← h]
    | some r1 =>
      rw [hs] at h
      simp [storeMembers, hs, ← h, ih r1]

theorem storeString_isSome (v : JSON) (cur : String) :
    (storeString v cur).isSome = v.isStringOrNull := by
  cases v <;> rfl

theorem storePtrString_isSome (v : JSON) :
    (storePtrString v).isSome = v.isStringOrNull := by
  cases v <;> rfl

theorem createFolderRequest_setField_isSome (k : String) (v : JSON)
    (r : createFolderRequest) :
    (createFolderRequest.setField k v r).isSome
      = (knownField createFolderRequest.names k && v.isStringOrNull) := by
  unfold createFolderRequest.setField
  by_cases h1 : keyMatches k "name" = true
  · simp [h1, knownField, createFolderRequest.names, storeString_isSome]
  · by_cases h2 : keyMatches k "parent_id" = true
    · simp [h1, h2, knownField, createFolderRequest.names, storePtrString_isSome]
    · simp [h1, h2, knownField, createFolderRequest.names]

theorem createDocumentRequest_setField_isSome (k : String) (v : JSON)
    (r : createDocumentRequest) :
    (createDocumentRequest.setField k v r).isSome
      = (knownField documentRequestNames k && v.isStringOrNull) := by
  unfold createDocumentRequest.setField
  by_cases h1 : keyMatches k "title" = true
  · simp [h1, knownField, documentRequestNames, storeString_isSome]
  · by_cases h2 : keyMatches k "folder_id" = true
    · simp [h1, h2, knownField, documentRequestNames, storePtrString_isSome]
    · by_cases h3 : keyMatches k "content" = true
      · simp [h1, h2, h3, knownField, documentRequestNames, storeString_isSome]
      · simp [h1, h2, h3, knownField, documentRequestNames]

theorem updateDocumentRequest_setField_isSome (k : String) (v : JSON)
    (r : updateDocumentRequest) :
    (updateDocumentRequest.setField k v r).isSome
      = (knownField documentRequestNames k && v.isStringOrNull) := by
  unfold updateDocumentRequest.setField
  by_cases h1 : keyMatches k "title" = true
  · simp [h1, knownField, documentRequestNames, storeString_isSome]
  · by_cases h2 : keyMatches k "folder_id" = true
    · simp [h1, h2, knownField, documentRequestNames, storePtrString_isSome]
    · by_cases h3 : keyMatches k "content" = true
      · simp [h1, h2, h3, knownField, documentRequestNames, storeString_isSome]
      · simp [h1, h2, h3, knownField, documentRequestNames]

theorem unmarshalStruct_isSome {α : Type} (dst : Dest α) (names : List String)
    (hset : ∀ k v r, (dst.setField k v r).isSome = (knownField names k && v.isStringOrNull))
    (v : JSON) :
    (unmarshalStruct dst.setField dst.zero v).isSome = acceptableValue names v := by
  cases v with
  | obj members =>
    simp only [unmarshalStruct, acceptableValue]
    exact storeMembers_isSome dst.setField _ hset members dst.zero
  | _ => rfl

theorem decodeJSON_ok_iff {α : Type} (dst : Dest α) (names : List String)
    (hset : ∀ k v r, (dst.setField k v r).isSome = (knownField names k && v.isStringOrNull))
    (body : String) :
    (∃ req, decodeJSON dst body = .ok req) ↔ acceptableBody names body = true := by
  unfold decodeJSON acceptableBody
  by_cases hsz : maxBodyBytes < body.utf8ByteSize
  · simp [hsz, Nat.not_le.mpr hsz]
  · have hle : body.utf8ByteSize ≤ maxBodyBytes := Nat.not_lt.mp hsz
    simp only [hsz, if_false, hle, decide_True, Bool.true_and]
    cases hr : readValue body.data with
    | none => simp
    | some p =>
      obtain ⟨v, rest⟩ := p
      have hu := unmarshalStruct_isSome dst names hset v
      cases hv : unmarshalStruct dst.setField dst.zero v with
      | none =>
        rw [hv] at hu
        simp [← hu, hv]
      | some req =>
        rw [hv] at hu
        by_cases hrest : (skipSpace rest).isEmpty = true
        · simp [← hu, hv, hrest]
        · simp [← hu, hv, hrest]

theorem decodeJSON_error {α : Type} (dst : Dest α) (body : String) (e : String)
    (h : decodeJSON dst body = .error e) : e = invalidPayload := by
  unfold decodeJSON at h
  split at h
  · exact (Except.error.inj h).symm
  · split at h
    · exact (Except.error.inj h).symm
    · split at h
      · exact (Except.error.inj h).symm
      · split at h
        · cases h
        · exact (Except.error.inj h).symm

theorem decodeJSON_rejects {α : Type} (dst : Dest α) (names : List String)
    (hset : ∀ k v r, (dst.setField k v r).isSome = (knownField names k && v.isStringOrNull))
    (body : String) (h : acceptableBody names body = false) :
    decodeJSON dst body = .error invalidPayload := by
  cases hd : decodeJSON dst body with
  | error e => rw [decodeJSON_error dst body e hd]
  | ok req =>
    have := (decodeJSON_ok_iff dst names hset body).mp ⟨req, hd⟩
    rw [h] at this
    exact Bool.noConfusion this

/-! ## The fuel of `readValue` is never exhausted -/

theorem skipSpace_length_le (cs : List Char) : (skipSpace cs).length ≤ cs.length :=
  (List.dropWhile_suffix isJSONSpace).length_le

theorem length_lt_of_skipSpace_cons {cs rest : List Char} {c : Char}
    (h : skipSpace cs = c :: rest) : rest.length < cs.length := by
  have := skipSpace_length_le cs
  rw [h] at this
  simp only [List.length_cons] at this
  omega

theorem map_fst_eq_some {α β γ : Type} {g : α → β} {o : Option (α × γ)} {u : β} {rest : γ}
    (h : Option.map (fun r => (g r.1, r.2)) o = some (u, rest)) :
    ∃ u1, o = some (u1, rest) := by
  rw [Option.map_eq_some'] at h
  obtain ⟨⟨u1, r1⟩, h1, h2⟩ := h
  simp only [Prod.mk.injEq] at h2
  exact ⟨u1, by rw [h1, h2.2]⟩

theorem scanString_length_aux : ∀ (n : Nat) (cs : List Char), cs.length ≤ n →
    ∀ u rest, scanString cs = some (u, rest) → rest.length < cs.length := by
  intro n
  induction n with
  | zero =>
    intro cs hlen u rest h
    have : cs = [] := List.length_eq_zero.mp (Nat.le_zero.mp hlen)
    subst this
    rw [scanString.eq_def] at h
    cases h
  | succ n ih =>
    intro cs hlen u rest h
    rw [scanString.eq_def] at h
    split at h
    · cases h
    · rename_i c cs0
      simp only [List.length_cons] at hlen ⊢
      split_ifs at h
      · simp only [Option.some.injEq, Prod.mk.injEq] at h
        rw [← h.2]
        omega
      · split at h
        · cases h
        · rename_i e cs1
          simp only [List.length_cons] at hlen ⊢
          split_ifs at h
          · split at h
            · rename_i a b c1 d rest0
              simp only [List.length_cons] at hlen ⊢
              split at h
              · obtain ⟨u1, h1⟩ := map_fst_eq_some h
                have := ih rest0 (by omega) u1 rest h1
                omega
              · cases h
            · cases h
          · split at h
            · obtain ⟨u1, h1⟩ := map_fst_eq_some h
              have := ih cs1 (by omega) u1 rest h1
              omega
            · cases h
      · obtain ⟨u1, h1⟩ := map_fst_eq_some h
        have := ih cs0 (by omega) u1 rest h1
        omega

theorem parseString_length {cs : List Char} {s : String} {rest : List Char}
    (h : parseString cs = some (s, rest)) : rest.length < cs.length := by
  unfold parseString at h
  obtain ⟨u1, h1⟩ := map_fst_eq_some (g := fun u => String.mk (unquoteUnits none u)) h
  exact scanString_length_aux cs.length cs (Nat.le_refl _) u1 rest h1

theorem span_snd_length_le (p : Char → Bool) (cs : List Char) :
    (cs.span p).2.length ≤ cs.length := by
  rw [List.span_eq_take_drop]
  exact (List.dropWhile_suffix p).length_le

theorem scanDigits_length {cs ds rest : List Char} (h : scanDigits cs = some (ds, rest)) :
    rest.length ≤ cs.length := by
  unfold scanDigits at h
  have hl := span_snd_length_le Char.isDigit cs
  split at h
  · cases h
  · rename_i ds0 rest0 _ heq
    simp only [Option.some.injEq, Prod.mk.injEq] at h
    rw [heq] at hl
    rw [← h.2]
    exact hl

theorem scanExponent_length {cs ds rest : List Char} (h : scanExponent cs = some (ds, rest)) :
    rest.length ≤ cs.length := by
  unfold scanExponent at h
  split at h
  · rename_i e rest0
    split_ifs at h
    · split at h
      · rename_i sg rest1
        split_ifs at h
        · obtain ⟨u1, h1⟩ := map_fst_eq_some (g := fun r => e :: sg :: r) h
          have := scanDigits_length h1
          simp only [List.length_cons]
          omega
        · obtain ⟨u1, h1⟩ := map_fst_eq_some (g := fun r => e :: r) h
          have := scanDigits_length h1
          simp only [List.length_cons] at this ⊢
          omega
      · cases h
    · simp only [Option.some.injEq, Prod.mk.injEq] at h
      rw [← h.2]
  · simp only [Option.some.injEq, Prod.mk.injEq] at h
    rw [← h.2]

theorem scanFraction_length {cs ds rest : List Char} (h : scanFraction cs = some (ds, rest)) :
    rest.length ≤ cs.length := by
  unfold scanFraction at h
  split at h
  · rename_i rest0
    split at h
    · rename_i ds0 rest1 hd
      obtain ⟨u1, h1⟩ := map_fst_eq_some (g := fun r => '.' :: ds0 ++ r) h
      have h2 := scanExponent_length h1
      have h3 := scanDigits_length hd
      simp only [List.length_cons]
      omega
    · cases h
  · exact scanExponent_length h

theorem scanUnsigned_length {cs ds rest : List Char} (h : scanUnsigned cs = some (ds, rest)) :
    rest.length < cs.length := by
  unfold scanUnsigned at h
  split at h
  · rename_i c rest0
    simp only [List.length_cons]
    split_ifs at h
    · obtain ⟨u1, h1⟩ := map_fst_eq_some (g := fun r => c :: r) h
      have := scanFraction_length h1
      omega
    · have hl := span_snd_length_le Char.isDigit rest0
      split at h
      rename_i ds0 rest1 heq
      rw [heq] at hl
      obtain ⟨u1, h1⟩ := map_fst_eq_some (g := fun r => c :: ds0 ++ r) h
      have := scanFraction_length h1
      simp only at hl
      omega
  · cases h

theorem scanNumber_length {cs ds rest : List Char} (h : scanNumber cs = some (ds, rest)) :
    rest.length < cs.length := by
  unfold scanNumber at h
  split at h
  · rename_i rest0
    obtain ⟨u1, h1⟩ := map_fst_eq_some (g := fun r => '-' :: r) h
    have := scanUnsigned_length h1
    simp only [List.length_cons]
    omega
  · exact scanUnsigned_length h

theorem parse_length : ∀ n,
    (∀ d cs v rest, parseValue n d cs = some (v, rest) → rest.length < cs.length) ∧
    (∀ d cs ms rest, parseMembers n d cs = some (ms, rest) → rest.length < cs.length) ∧
    (∀ d cs xs rest, parseElements n d cs = some (xs, rest) → rest.length < cs.length) := by
  intro n
  induction n with
  | zero =>
    refine ⟨?_, ?_, ?_⟩ <;> intro d cs v rest h
    · rw [parseValue.eq_1] at h; cases h
    · rw [parseMembers.eq_1] at h; cases h
    · rw [parseElements.eq_1] at h; cases h
  | succ n ih =>
    obtain ⟨ihV, ihM, ihE⟩ := ih
    refine ⟨?_, ?_, ?_⟩
    · intro d cs v rest h
      rw [parseValue.eq_2] at h
      split at h
      · cases h
      · rename_i c rest0 hsk
        have hc := length_lt_of_skipSpace_cons hsk
        split_ifs at h
        · split at h
          · rename_i rest1 heq
            have := length_lt_of_skipSpace_cons heq
            simp only [Option.some.injEq, Prod.mk.injEq] at h
            rw [← h.2]; omega
          · obtain ⟨u1, h1⟩ := map_fst_eq_some (g := fun r => JSON.obj r) h
            have := ihM _ _ _ _ h1
            omega
        · split at h
          · rename_i rest1 heq
            have := length_lt_of_skipSpace_cons heq
            simp only [Option.some.injEq, Prod.mk.injEq] at h
            rw [← h.2]; omega
          · obtain ⟨u1, h1⟩ := map_fst_eq_some (g := fun r => JSON.arr r) h
            have := ihE _ _ _ _ h1
            omega
        · obtain ⟨u1, h1⟩ := map_fst_eq_some (g := fun r => JSON.str r) h
          have := parseString_length h1
          omega
        · obtain ⟨u1, h1⟩ := map_fst_eq_some (g := fun r => JSON.num r) h
          have := scanNumber_length h1
          have := skipSpace_length_le cs
          rw [hsk] at this
          omega
        · simp only [Option.some.injEq, Prod.mk.injEq] at h
          rw [← h.2]; simp only [List.length_drop]; omega
        · simp only [Option.some.injEq, Prod.mk.injEq] at h
          rw [← h.2]; simp only [List.length_drop]; omega
        · simp only [Option.some.injEq, Prod.mk.injEq] at h
          rw [← h.2]; simp only [List.length_drop]; omega
    · intro d cs ms rest h
      rw [parseMembers.eq_2] at h
      split at h
      · rename_i rest0 hsk
        have hc := length_lt_of_skipSpace_cons hsk
        split at h
        · cases h
        · rename_i key rest1 hkey
          have h1 := parseString_length hkey
          split at h
          · rename_i rest2 hcolon
            have h2 := length_lt_of_skipSpace_cons hcolon
            split at h
            · cases h
            · rename_i v rest3 hv
              have h3 := ihV _ _ _ _ hv
              split at h
              · rename_i rest4 hcomma
                have h4 := length_lt_of_skipSpace_cons hcomma
                obtain ⟨u1, h5⟩ := map_fst_eq_some (g := fun r => (key, v) :: r) h
                have := ihM _ _ _ _ h5
                omega
              · rename_i rest4 hbrace
                have h4 := length_lt_of_skipSpace_cons hbrace
                simp only [Option.some.injEq, Prod.mk.injEq] at h
                rw [← h.2]; omega
              · cases h
          · cases h
      · cases h
    · intro d cs xs rest h
      rw [parseElements.eq_2] at h
      split at h
      · cases h
      · rename_i v rest0 hv
        have h1 := ihV _ _ _ _ hv
        split at h
        · rename_i rest1 hcomma
          have h2 := length_lt_of_skipSpace_cons hcomma
          obtain ⟨u1, h3⟩ := map_fst_eq_some (g := fun r => v :: r) h
          have := ihE _ _ _ _ h3
          omega
        · rename_i rest1 hbr
          have h2 := length_lt_of_skipSpace_cons hbr
          simp only [Option.some.injEq, Prod.mk.injEq] at h
          rw [← h.2]; omega
        · cases h

theorem parse_fuel : ∀ n,
    (∀ d cs, 2 * cs.length < n → parseValue (n + 1) d cs = parseValue n d cs) ∧
    (∀ d cs, 2 * cs.length + 1 < n → parseMembers (n + 1) d cs = parseMembers n d cs) ∧
    (∀ d cs, 2 * cs.length + 1 < n → parseElements (n + 1) d cs = parseElements n d cs) := by
  intro n
  induction n with
  | zero =>
    refine ⟨?_, ?_, ?_⟩ <;> intro d cs h <;> exact absurd h (Nat.not_lt_zero _)
  | succ n ih =>
    obtain ⟨ihV, ihM, ihE⟩ := ih
    refine ⟨?_, ?_, ?_⟩
    · intro d cs hlen
      rw [parseValue.eq_2 d cs (n + 1), parseValue.eq_2 d cs n]
      split
      · rfl
      · rename_i c rest0 hsk
        have hc := length_lt_of_skipSpace_cons hsk
        rw [ihM (d + 1) rest0 (by omega), ihE (d + 1) rest0 (by omega)]
    · intro d cs hlen
      rw [parseMembers.eq_2 d cs (n + 1), parseMembers.eq_2 d cs n]
      split
      · rename_i rest0 hsk
        have hc := length_lt_of_skipSpace_cons hsk
        split
        · rfl
        · rename_i key rest1 hkey
          have h1 := parseString_length hkey
          split
          · rename_i rest2 hcolon
            have h2 := length_lt_of_skipSpace_cons hcolon
            rw [ihV d rest2 (by omega)]
            split
            · rfl
            · rename_i v rest3 hv
              have h3 := (parse_length n).1 _ _ _ _ hv
              split
              · rename_i rest4 hcomma
                have h4 := length_lt_of_skipSpace_cons hcomma
                rw [ihM d rest4 (by omega)]
              · rfl
              · rfl
          · rfl
      · rfl
    · intro d cs hlen
      rw [parseElements.eq_2 d cs (n + 1), parseElements.eq_2 d cs n]
      rw [ihV d cs (by omega)]
      split
      · rfl
      · rename_i v rest0 hv
        have h1 := (parse_length n).1 _ _ _ _ hv
        split
        · rename_i rest1 hcomma
          have h2 := length_lt_of_skipSpace_cons hcomma
          rw [ihE d rest1 (by omega)]
        · rfl
        · rfl

/-- More fuel changes nothing: the result of `readValue` is the result of the
parser for every larger amount of fuel. -/
theorem readValue_fuel (cs : List Char) (k : Nat) :
    parseValue (2 * cs.length + 2 + k) 0 cs = readValue cs := by
  induction k with
  | zero => rfl
  | succ k ih =>
    rw [← ih]
    exact (parse_fuel (2 * cs.length + 2 + k)).1 0 cs (by omega)

theorem acceptableBody_unknown_field (names : List String) (body : String)
    (members : List (String × JSON)) (rest : List Char)
    (hr : readValue body.data = some (.obj members, rest))
    (hu : ∃ m ∈ members, knownField names m.1 = false) :
    acceptableBody names body = false := by
  obtain ⟨m, hm, hk⟩ := hu
  have hall : members.all (fun m => knownField names m.1 && m.2.isStringOrNull) = false := by
    rw [List.all_eq_false]
    exact ⟨m, hm, by simp [hk]⟩
  simp [acceptableBody, hr, acceptableValue, hall]

theorem acceptableBody_trailing (names : List String) (body : String) (v : JSON)
    (rest : List Char) (hr : readValue body.data = some (v, rest))
    (ht : skipSpace rest ≠ []) : acceptableBody names body = false := by
  simp [acceptableBody, hr, ht]

/-- C6 (as stated) fails in both directions: the body `null` is accepted (the
request keeps its zero value) although it is not an object, and the body
`{"name":1}`, one well-formed object whose only field is known and which
nothing follows, is rejected. -/
theorem decodeJSON_not_single_known_object :
    (decodeJSON createFolderRequest.dest "null" = .ok ⟨"", none⟩ ∧
      singleKnownObject createFolderRequest.names "null" = false) ∧
    (singleKnownObject createFolderRequest.names "\x7b\"name\":1\x7d" = true ∧
      decodeJSON createFolderRequest.dest "\x7b\"name\":1\x7d" = .error invalidPayload) :=
  ⟨⟨rfl, rfl⟩, ⟨rfl, rfl⟩⟩

/-- C6 (amended): `decodeJSON` accepts a body exactly when the body is at most
`1<<20` bytes long and consists of one well-formed JSON value followed by
nothing other than white space, the value being `null` or an object whose
members all select a field of the destination type (up to case) and carry a
string or `null`.  In particular a body whose object has an unknown field and
a body with anything but white space after the first value are rejected, and on
a rejection each handler answers 400 "invalid JSON payload", calls no store
method and leaves the store unchanged.  The parser's fuel plays no part. -/
theorem decodeJSON_accepts_iff (body : String) :
    ((∃ req, decodeJSON createFolderRequest.dest body = .ok req) ↔
      acceptableBody createFolderRequest.names body = true) ∧
    ((∃ req, decodeJSON createDocumentRequest.dest body = .ok req) ↔
      acceptableBody documentRequestNames body = true) ∧
    ((∃ req, decodeJSON updateDocumentRequest.dest body = .ok req) ↔
      acceptableBody documentRequestNames body = true) ∧
    (∀ names members rest, readValue body.data = some (.obj members, rest) →
      (∃ m ∈ members, knownField names m.1 = false) → acceptableBody names body = false) ∧
    (∀ names v rest, readValue body.data = some (v, rest) → skipSpace rest ≠ [] →
      acceptableBody names body = false) ∧
    (∀ db env (r : Request), r.Body = body → r.Method = "POST" →
      acceptableBody createFolderRequest.names body = false →
      handleFolders db env r
        = { resp := writeError 400 "invalid JSON payload", db := db, calls := [] }) ∧
    (∀ db env (r : Request), r.Body = body → r.Method = "POST" →
      acceptableBody documentRequestNames body = false →
      handleDocuments db env r
        = { resp := writeError 400 "invalid JSON payload", db := db, calls := [] }) ∧
    (∀ db env (r : Request), r.Body = body → r.Method = "PUT" →
      TrimPrefix r.Path "/api/documents/" ≠ "" →
      acceptableBody documentRequestNames body = false →
      handleDocument db env r
        = { resp := writeError 400 "invalid JSON payload", db := db, calls := [] }) ∧
    (∀ k, parseValue (2 * body.data.length + 2 + k) 0 body.data = readValue body.data) := by
  refine ⟨decodeJSON_ok_iff createFolderRequest.dest _ createFolderRequest_setField_isSome body,
    decodeJSON_ok_iff createDocumentRequest.dest _ createDocumentRequest_setField_isSome body,
    decodeJSON_ok_iff updateDocumentRequest.dest _ updateDocumentRequest_setField_isSome body,
    fun names members rest hr hu => acceptableBody_unknown_field names body members rest hr hu,
    fun names v rest hr ht => acceptableBody_trailing names body v rest hr ht,
    ?_, ?_, ?_, readValue_fuel body.data⟩
  · intro db env r hb hm hrej
    have hd := decodeJSON_rejects createFolderRequest.dest _ createFolderRequest_setField_isSome body hrej
    simp [handleFolders, hm, hb, hd, invalidPayload]
  · intro db env r hb hm hrej
    have hd := decodeJSON_rejects createDocumentRequest.dest _ createDocumentRequest_setField_isSome body hrej
    simp [handleDocuments, hm, hb, hd, invalidPayload]
  · intro db env r hb hm hid hrej
    have hd := decodeJSON_rejects updateDocumentRequest.dest _ updateDocumentRequest_setField_isSome body hrej
    have hput : ("PUT" : String) ≠ "GET" := by decide
    simp [handleDocument, hm, hb, hd, hid, hput, invalidPayload]

theorem decodeJSON_accepts_iff_witness :
    readValue "\x7b\"name\":\"X\",\"bogus\":1\x7d".data
      = some (.obj [("name", .str "X"), ("bogus", .num ['1'])], []) ∧
    knownField createFolderRequest.names "bogus" = false ∧
    (handleFolders emptyDb (quietEnv "f1" 1)
        (request "POST" "/api/folders" "\x7b\"name\":\"X\",\"bogus\":1\x7d")).resp
      = writeError 400 "invalid JSON payload" ∧
    (∃ req, decodeJSON createFolderRequest.dest "\x7b\"NAME\":\"X\",\"parent_id\":null\x7d \n"
      = .ok req) :=
  have h := decodeJSON_accepts_iff "\x7b\"name\":\"X\",\"bogus\":1\x7d"
  have hrej := h.2.2.2.1 createFolderRequest.names
    [("name", .str "X"), ("bogus", .num ['1'])] [] rfl
    ⟨("bogus", .num ['1']), List.mem_cons_of_mem _ (List.mem_singleton.mpr rfl), by decide⟩
  ⟨rfl, by decide,
   congrArg Outcome.resp (h.2.2.2.2.2.1 emptyDb (quietEnv "f1" 1)
     (request "POST" "/api/folders" "\x7b\"name\":\"X\",\"bogus\":1\x7d") rfl rfl hrej),
   (decodeJSON_accepts_iff "\x7b\"NAME\":\"X\",\"parent_id\":null\x7d \n").1.mpr (by decide)⟩

end Dox
